import Mathlib

set_option maxRecDepth 8000

/-!
Shallow embedding of the arena simulation of BombNBreakSNES (`src/main.c`).

The in-memory game screen is a linear array of 32x28 byte-sized tiles
(`gameFieldLow`, `gameFieldHigh`, `aniField`, `ttlField`); we model each of
the four planes as a function `Nat → Nat` holding byte values.  Machine
arithmetic that can wrap in the C code (`uint8_t` / `uint16_t` casts) is
made explicit with `% 256` / `% 65536`.  The global configuration values
(`maxBombs`, `maxRange`) are passed as a `Cfg` record; the mutable global
state (grid planes, both players, the chain list, timers, RNG state) lives
in `GameState`.  `dets` is a ghost event log recording the bombs detonated
by the per-tick timer scan; it has no influence on the other fields.
-/

/- Configuration and tile constants from `main.c`. -/

def DEF_MAX_TIME : Nat := 180
def DEF_DROP_RATE : Nat := 35
def MAX_BOMBS : Nat := 9
def MAX_RANGE : Nat := 9
def BOMB_TTL : Nat := 35
def BOOTS_TTL : Nat := 150
def INVALID_LAST_BOMB_IDX : Nat := 255
def BOMB_ANIMATION : Nat := 2
def PLAYER_ANIMATION : Nat := 1
def EXPLOSION_ANIMATION : Nat := 1

def P_LEFT : Nat := 4
def P_RIGHT : Nat := 12
def P_TOP : Nat := 9
def P_BOTTOM : Nat := 15
def P_MID_X : Nat := 7
def P_MID_Y : Nat := 12

def ACT_DOWN : Nat := 0
def ACT_UP : Nat := 3
def ACT_SIDE : Nat := 6

def FIELD_EMPTY : Nat := 0x00
def FIELD_BOMB_P1 : Nat := 0x08
def FIELD_BOMB_P2 : Nat := 0x0C
def FIELD_PU_BOMB : Nat := 0x28
def FIELD_PU_RANGE : Nat := 0x2A
def FIELD_PU_SPEED : Nat := 0x2C
def FIELD_SOLID : Nat := 0x68
def FIELD_BRICKED : Nat := 0x6A
def FIELD_EXPL_MID : Nat := 0x20
def FIELD_EXPL_PART_X : Nat := 0x40
def FIELD_EXPL_END_X : Nat := 0x60
def FIELD_EXPL_PART_Y : Nat := 0x80
def FIELD_EXPL_END_Y : Nat := 0xA0

def FTYPE_EMPTY : Nat := 0
def FTYPE_BOMB_P1 : Nat := 1
def FTYPE_BOMB_P2 : Nat := 2
def FTYPE_PU_BOMB : Nat := 3
def FTYPE_PU_RANGE : Nat := 4
def FTYPE_PU_SPEED : Nat := 5
def FTYPE_SOLID : Nat := 6
def FTYPE_BRICKED : Nat := 7
def FTYPE_FLAME : Nat := 8

def WINNER_NA : Nat := 0
def WINNER_P1 : Nat := 1
def WINNER_P2 : Nat := 2
def WINNER_DRAW : Nat := 3

def CH_s : Nat := 0x5C
def CH_space : Nat := 0x00

/-- Tile index of the character tiles for the digits 0-9 (`fg2NumText`). -/
def fg2NumText : List Nat :=
  [0x48, 0x49, 0x4A, 0x4B, 0x4C, 0x4D, 0x4E, 0x4F, 0x58, 0x59]

/-- `TILE_OFFSET(x, y)` of `main.c`: linear index on the 32-tile-wide screen. -/
def TILE_OFFSET (x y : Nat) : Nat := y * 32 + x

/-- `TILE_OFFSET_1(x, y)` of `main.c`. -/
def TILE_OFFSET_1 (x y : Nat) : Nat := y * 32 + x + 1

/-- `TILE_ATTR(y, x, prio, palette)` of `main.c`. -/
def TILE_ATTR (y x prio palette : Nat) : Nat :=
  (y <<< 7) ||| (x <<< 6) ||| (prio <<< 5) ||| (palette <<< 2)

/-- `fTypeMap` of `main.c`: maps the foreground 2 tile index (0x00..0xBF) to
a field type enumeration value.  The replicate-runs mirror the rows of the
C array literal. -/
def fTypeMap : List Nat :=
  List.replicate 8 FTYPE_EMPTY ++                                     -- 0x00
  List.replicate 4 FTYPE_BOMB_P1 ++ List.replicate 4 FTYPE_BOMB_P2 ++ -- 0x08
  List.replicate 8 FTYPE_EMPTY ++                                     -- 0x10
  List.replicate 4 FTYPE_BOMB_P1 ++ List.replicate 4 FTYPE_BOMB_P2 ++ -- 0x18
  List.replicate 8 FTYPE_FLAME ++                                     -- 0x20
  List.replicate 2 FTYPE_PU_BOMB ++ List.replicate 2 FTYPE_PU_RANGE ++
  List.replicate 2 FTYPE_PU_SPEED ++ List.replicate 2 FTYPE_EMPTY ++  -- 0x28
  List.replicate 8 FTYPE_FLAME ++                                     -- 0x30
  List.replicate 2 FTYPE_PU_BOMB ++ List.replicate 2 FTYPE_PU_RANGE ++
  List.replicate 2 FTYPE_PU_SPEED ++ List.replicate 2 FTYPE_EMPTY ++  -- 0x38
  List.replicate 8 FTYPE_FLAME ++                                     -- 0x40
  List.replicate 8 FTYPE_EMPTY ++                                     -- 0x48
  List.replicate 8 FTYPE_FLAME ++                                     -- 0x50
  List.replicate 8 FTYPE_EMPTY ++                                     -- 0x58
  List.replicate 8 FTYPE_FLAME ++                                     -- 0x60
  List.replicate 2 FTYPE_SOLID ++ List.replicate 6 FTYPE_BRICKED ++   -- 0x68
  List.replicate 8 FTYPE_FLAME ++                                     -- 0x70
  List.replicate 2 FTYPE_SOLID ++ List.replicate 6 FTYPE_BRICKED ++   -- 0x78
  List.replicate 8 FTYPE_FLAME ++                                     -- 0x80
  List.replicate 8 FTYPE_EMPTY ++                                     -- 0x88
  List.replicate 8 FTYPE_FLAME ++                                     -- 0x90
  List.replicate 8 FTYPE_EMPTY ++                                     -- 0x98
  List.replicate 8 FTYPE_FLAME ++                                     -- 0xA0
  List.replicate 8 FTYPE_EMPTY ++                                     -- 0xA8
  List.replicate 8 FTYPE_FLAME ++                                     -- 0xB0
  List.replicate 8 FTYPE_EMPTY                                        -- 0xB8

/-- Categorize a raw tile index (`fTypeMap[tile]` in the C code). -/
def fType (tile : Nat) : Nat := fTypeMap.getD tile FTYPE_EMPTY

/-- `tBombField` of `main.c`. -/
structure BombField where
  x : Nat
  y : Nat
  ttl : Nat
  curFrame : Nat
  ttlFrame : Nat
deriving Repr, DecidableEq, Inhabited

/-- `tTriggeredBomb` of `main.c`; the `entry` pointer into a player's
`bombList` is modelled as the owning player (`false` = player 1) plus the
slot index. -/
structure TriggeredBomb where
  range : Nat
  owner : Bool
  idx : Nat
deriving Repr, DecidableEq, Inhabited

/-- `tPlayer` of `main.c`. -/
structure Player where
  x : Nat
  y : Nat
  firstFrame : Nat
  curFrame : Nat
  flipX : Nat
  moveAniIdx : Nat
  ttlFrame : Nat
  moving : Nat
  range : Nat
  maxBombs : Nat
  bombs : Nat
  running : Nat
  bombList : List BombField
  lastBombIdx : Nat
deriving Repr, DecidableEq, Inhabited

/-- Static configuration chosen on the options screen. -/
structure Cfg where
  maxBombs : Nat
  maxRange : Nat
deriving Repr, DecidableEq, Inhabited

/-- The mutable global state of the game loop.  `dets` is a ghost log of the
bombs detonated by the per-tick timer scan (owner, slot index); it is not
read by any operation. -/
structure GameState where
  gameFieldLow : Nat → Nat
  gameFieldHigh : Nat → Nat
  aniField : Nat → Nat
  ttlField : Nat → Nat
  p1 : Player
  p2 : Player
  bombChain : List TriggeredBomb
  dets : List (Bool × Nat)
  winner : Nat
  gameOver : Nat
  untilSecond : Nat
  counter10Hz : Nat
  lrngState : Nat
  dropRate255 : Nat
  refreshLow : Bool
  refreshHigh : Bool
  refreshSprites : Bool

/-- Point update of a byte plane. -/
def upd (f : Nat → Nat) (i v : Nat) : Nat → Nat :=
  fun n => if n = i then v else f n

/-- Update the four tiles of a 16x16 field element (offsets +0, +1, +0x20,
+0x21 from the upper left tile). -/
def updQuad (f : Nat → Nat) (m v0 v1 v2 v3 : Nat) : Nat → Nat :=
  upd (upd (upd (upd f m v0) (m + 1) v1) (m + 0x20) v2) (m + 0x21) v3

/-- `(uint8_t)` cast of a C `int` expression. -/
def u8i (v : Int) : Nat := (v % 256).toNat

/-- `clearField` of `main.c`. -/
def clearField (m : Nat) (st : GameState) : GameState :=
  { st with
    gameFieldLow := updQuad st.gameFieldLow m FIELD_EMPTY FIELD_EMPTY FIELD_EMPTY FIELD_EMPTY
    refreshLow := true }

/-- `setField` of `main.c` with a possibly negative `int` base offset (the
crossing-flame re-stamp computes the offset in C `int` arithmetic before the
`(uint8_t)` casts). -/
def setFieldInt (m : Nat) (off : Int) (st : GameState) : GameState :=
  { st with
    gameFieldLow :=
      updQuad st.gameFieldLow m (u8i off) (u8i (off + 1)) (u8i (off + 0x10)) (u8i (off + 0x11))
    refreshLow := true }

/-- `setField` of `main.c`. -/
def setField (m off : Nat) (st : GameState) : GameState :=
  { st with
    gameFieldLow :=
      updQuad st.gameFieldLow m (off % 256) ((off + 1) % 256) ((off + 0x10) % 256)
        ((off + 0x11) % 256)
    refreshLow := true }

/-- `setFieldFlippedX` of `main.c`. -/
def setFieldFlippedX (m off : Nat) (st : GameState) : GameState :=
  { st with
    gameFieldLow :=
      updQuad st.gameFieldLow m ((off + 1) % 256) (off % 256) ((off + 0x11) % 256)
        ((off + 0x10) % 256)
    refreshLow := true }

/-- `setFieldFlippedY` of `main.c`. -/
def setFieldFlippedY (m off : Nat) (st : GameState) : GameState :=
  { st with
    gameFieldLow :=
      updQuad st.gameFieldLow m ((off + 0x10) % 256) ((off + 0x11) % 256) (off % 256)
        ((off + 1) % 256)
    refreshLow := true }

/-- `nextFieldFrame` of `main.c`. -/
def nextFieldFrame (m : Nat) (st : GameState) : GameState :=
  { st with
    gameFieldLow :=
      updQuad st.gameFieldLow m ((st.gameFieldLow m + 2) % 256)
        ((st.gameFieldLow (m + 1) + 2) % 256) ((st.gameFieldLow (m + 0x20) + 2) % 256)
        ((st.gameFieldLow (m + 0x21) + 2) % 256)
    refreshLow := true }

/-- `setFieldAttr` of `main.c`. -/
def setFieldAttr (m attr : Nat) (st : GameState) : GameState :=
  { st with
    gameFieldHigh := updQuad st.gameFieldHigh m attr attr attr attr
    refreshHigh := true }

/-- Select a player by owner flag (`false` = `p1`, `true` = `p2`). -/
def playerOf (st : GameState) (o : Bool) : Player :=
  if o then st.p2 else st.p1

/-- Write back a player selected by owner flag. -/
def setPlayer (o : Bool) (p : Player) (st : GameState) : GameState :=
  if o then { st with p2 := p } else { st with p1 := p }

/-- `handleExplodedField` of `main.c`.  The C routine communicates through
the globals `x`, `y` (tile coordinates of the cell being resolved), `m` (its
linear index) and `j` (remaining range steps, `1` on the last step); these
are explicit arguments here.  Returns the `continue?` flag and the updated
state. -/
def handleExplodedField (attr part endt x y m j : Nat) (st : GameState) : Bool × GameState :=
  let t := fType (st.gameFieldLow m)
  if t = FTYPE_EMPTY then
    let st1 := { st with
      aniField := upd st.aniField m 4
      ttlField := upd st.ttlField m EXPLOSION_ANIMATION }
    let st2 := setFieldAttr m attr st1
    let j2 := if j = 1 then endt else part
    let st3 :=
      if attr &&& 0x80 ≠ 0 then setFieldFlippedY m j2 st2
      else if attr &&& 0x40 ≠ 0 then setFieldFlippedX m j2 st2
      else setField m j2 st2
    (true, st3)
  else if t = FTYPE_FLAME then
    let st1 := setFieldAttr m (TILE_ATTR 0 0 1 3) st
    let st2 := setFieldInt m ((FIELD_EXPL_MID : Int) + 2 * (4 - (st1.aniField m : Int))) st1
    (true, st2)
  else if t = FTYPE_PU_BOMB ∨ t = FTYPE_PU_RANGE ∨ t = FTYPE_PU_SPEED then
    (false, clearField m st)
  else if t = FTYPE_SOLID then
    (false, st)
  else if t = FTYPE_BOMB_P1 then
    match st.p1.bombList.findIdx? (fun bf => bf.ttl != 0 && bf.x == x && bf.y == y) with
    | some j2 =>
      let bf := st.p1.bombList.getD j2 default
      (false, { st with
        p1 := { st.p1 with
          bombs := st.p1.bombs + 1
          bombList := st.p1.bombList.set j2 { bf with ttl := 0 } }
        bombChain := st.bombChain ++ [{ range := st.p1.range, owner := false, idx := j2 }] })
    | none => (false, st)
  else if t = FTYPE_BOMB_P2 then
    match st.p2.bombList.findIdx? (fun bf => bf.ttl != 0 && bf.x == x && bf.y == y) with
    | some j2 =>
      let bf := st.p2.bombList.getD j2 default
      (false, { st with
        p2 := { st.p2 with
          bombs := st.p2.bombs + 1
          bombList := st.p2.bombList.set j2 { bf with ttl := 0 } }
        bombChain := st.bombChain ++ [{ range := st.p2.range, owner := true, idx := j2 }] })
    | none => (false, st)
  else if t = FTYPE_BRICKED then
    if st.aniField m = 0 then
      let st1 := { st with
        aniField := upd st.aniField m 4
        ttlField := upd st.ttlField m EXPLOSION_ANIMATION }
      (false, setField m (FIELD_BRICKED + 2) st1)
    else (false, st)
  else (false, st)

/-- The four propagation directions of `handleExplosion`. -/
inductive Dir where
  | left
  | right
  | up
  | down
deriving Repr, DecidableEq

/-- Tile attribute used for a direction (`TILE_ATTR` arguments at the call
sites of `handleExplodedField`). -/
def dirAttr : Dir → Nat
  | .left => TILE_ATTR 0 1 1 3
  | .right => TILE_ATTR 0 0 1 3
  | .up => TILE_ATTR 1 0 1 3
  | .down => TILE_ATTR 0 0 1 3

/-- Through-segment tile base for a direction. -/
def dirPart : Dir → Nat
  | .left => FIELD_EXPL_PART_X
  | .right => FIELD_EXPL_PART_X
  | .up => FIELD_EXPL_PART_Y
  | .down => FIELD_EXPL_PART_Y

/-- End-cap tile base for a direction. -/
def dirEnd : Dir → Nat
  | .left => FIELD_EXPL_END_X
  | .right => FIELD_EXPL_END_X
  | .up => FIELD_EXPL_END_Y
  | .down => FIELD_EXPL_END_Y

/-- One step of the walk position: the C loop bodies mutate the `uint8_t`
globals `x`, `y` and the `uint16_t` global `m` before resolving the cell. -/
def stepPos : Dir → Nat → Nat → Nat → Nat × Nat × Nat
  | .left, x, y, m => ((x + 254) % 256, y, (m + 65534) % 65536)
  | .right, x, y, m => ((x + 2) % 256, y, (m + 2) % 65536)
  | .up, x, y, m => (x, (y + 254) % 256, (m + 65472) % 65536)
  | .down, x, y, m => (x, (y + 2) % 256, (m + 64) % 65536)

/-- One directional `for (j = range, m = k; j; --j)` loop of
`handleExplosion`: step the position, resolve the cell, stop when blocked. -/
def explodeWalk (d : Dir) : Nat → Nat → Nat → Nat → GameState → GameState
  | 0, _, _, _, st => st
  | j + 1, x, y, m, st =>
    let p := stepPos d x y m
    match handleExplodedField (dirAttr d) (dirPart d) (dirEnd d) p.1 p.2.1 p.2.2 (j + 1) st with
    | (true, st1) => explodeWalk d j p.1 p.2.1 p.2.2 st1
    | (false, st1) => st1

/-- `handleExplosion` of `main.c`.  The `tBombField *` argument is modelled
as the owning player plus the slot index into that player's `bombList`. -/
def handleExplosion (range : Nat) (owner : Bool) (idx : Nat) (st : GameState) : GameState :=
  let e := (playerOf st owner).bombList.getD idx default
  let x := e.x
  let y := e.y
  let k := TILE_OFFSET_1 x y
  let st1 := { st with
    aniField := upd st.aniField k 4
    ttlField := upd st.ttlField k EXPLOSION_ANIMATION }
  let st2 := setField k FIELD_EXPL_MID st1
  let st3 := explodeWalk .left range x y k st2
  let st4 := explodeWalk .right range x y k st3
  let st5 := explodeWalk .up range x y k st4
  explodeWalk .down range x y k st5

/-- One iteration of the per-player bomb timer loop of `handleGame`
(`update player N bomb animation frames`): decrement the slot's ttl; if the
bomb is still alive advance its fizzing animation, otherwise credit the
owner a bomb, log the detonation (ghost `dets`) and propagate. -/
def bombScanStep (o : Bool) (st : GameState) (i : Nat) : GameState :=
  let p := playerOf st o
  let bf := p.bombList.getD i default
  if bf.ttl ≠ 0 then
    let bf1 := { bf with ttl := bf.ttl - 1 }
    if bf1.ttl ≠ 0 then
      let tf := bf1.ttlFrame - 1
      if tf = 0 then
        let bf2 := { bf1 with ttlFrame := BOMB_ANIMATION, curFrame := bf1.curFrame ^^^ 1 }
        let st1 := setPlayer o { p with bombList := p.bombList.set i bf2 } st
        setField (TILE_OFFSET_1 bf2.x bf2.y)
          ((if o then FIELD_BOMB_P2 else FIELD_BOMB_P1) + 2 * bf2.curFrame) st1
      else
        setPlayer o { p with bombList := p.bombList.set i { bf1 with ttlFrame := tf } } st
    else
      let st1 := setPlayer o { p with bombList := p.bombList.set i bf1 } st
      let p1 := playerOf st1 o
      let st2 := setPlayer o { p1 with bombs := p1.bombs + 1 } st1
      let st3 := { st2 with dets := st2.dets ++ [(o, i)] }
      handleExplosion (playerOf st3 o).range o i st3
  else st

/-- The full `for (i = 0; i < MAX_BOMBS; ++i)` timer scan of one player's
bomb list. -/
def bombScan (o : Bool) (st : GameState) : GameState :=
  (List.range MAX_BOMBS).foldl (bombScanStep o) st

/-- The `for (i = 0; i < bombChainCount; ++i)` chain-reaction loop of
`handleGame`.  `bombChainCount` can grow while the loop runs, so the loop is
given explicit fuel; `chainLoop_fuel_irrelevant` (claim C4) shows that fuel
`2 * MAX_BOMBS` always suffices. -/
def chainLoop : Nat → Nat → GameState → GameState
  | 0, _, st => st
  | fuel + 1, i, st =>
    if h : i < st.bombChain.length then
      let tb := st.bombChain.get ⟨i, h⟩
      chainLoop fuel (i + 1) (handleExplosion tb.range tb.owner tb.idx st)
    else st

/-- The bomb-handling phase of one 10Hz tick of `handleGame`: reset the
chain list, run both timer scans, then resolve the collected chain
reactions. -/
def tickBombs (st : GameState) : GameState :=
  let st0 := { st with bombChain := [], dets := [] }
  let st1 := bombScan false st0
  let st2 := bombScan true st1
  chainLoop (2 * MAX_BOMBS) 0 st2

/-- Modelled from the spec: the repository's `lrng()` lives in an assembly
file that is not under `src/`; per `utility.h` and the spec it is a
Marsaglia linear-feedback (xorshift) generator over a non-zero 32-bit state
with full period, returning a 16-bit value per draw.  We use the standard
13/17/5 xorshift32 recurrence and return the low 16 bits of the advanced
state. -/
def lrngStep (s : Nat) : Nat :=
  let s1 := (s ^^^ (s <<< 13)) % 4294967296
  let s2 := s1 ^^^ (s1 >>> 17)
  (s2 ^^^ (s2 <<< 5)) % 4294967296

/-- One `lrng()` call: the 16-bit draw and the advanced state. -/
def lrngDraw (s : Nat) : Nat × Nat :=
  let s1 := lrngStep s
  (s1 % 65536, s1)

/-- `dropRate255 = (uint8_t)((((uint16_t)dropRate) * 255) / 100)` from
`initializeGame`. -/
def dropRate255of (dropRate : Nat) : Nat := dropRate * 255 / 100

/-- One entry of the `update animated game field frames` loop of
`handleGame` for the field element at linear index `k`: run down the
per-field ttl, advance the decay animation, and on the final frame either
roll the power-up dice (for a decayed bricked wall) or clear the field. -/
def tickFieldAt (st : GameState) (k : Nat) : GameState :=
  if st.ttlField k ≠ 0 then
    let st1 := { st with ttlField := upd st.ttlField k (st.ttlField k - 1) }
    if st1.ttlField k = 0 then
      let st2 := { st1 with aniField := upd st1.aniField k (st1.aniField k - 1) }
      if st2.aniField k ≠ 0 then
        let st3 := { st2 with ttlField := upd st2.ttlField k EXPLOSION_ANIMATION }
        if st3.gameFieldLow k = FIELD_BRICKED + 4 then setField k (FIELD_BRICKED + 2) st3
        else nextFieldFrame k st3
      else
        let st3 :=
          if st2.gameFieldLow k = FIELD_BRICKED + 2 ∨ st2.gameFieldLow k = FIELD_BRICKED + 4 then
            let d := lrngDraw st2.lrngState
            let st3a := { st2 with lrngState := d.2 }
            if d.1 % 256 ≤ st3a.dropRate255 then
              let sel := d.1 &&& 0x0700
              if sel = 0 ∨ sel = 0x100 ∨ sel = 0x200 ∨ sel = 0x300 then
                setField k FIELD_PU_BOMB st3a
              else if sel = 0x400 ∨ sel = 0x500 ∨ sel = 0x600 then
                setField k FIELD_PU_RANGE st3a
              else setField k FIELD_PU_SPEED st3a
            else clearField k st3a
          else clearField k st2
        setFieldAttr k (TILE_ATTR 0 0 1 3) st3
    else st1
  else st

/-- `fieldElemIndex` of `main.c`: the linear indices of the changeable game
board field elements (the first `FIRST_FLEX_FIELD = 10` stay untouched
during field initialization). -/
def fieldElemIndex : List Nat :=
  [TILE_OFFSET_1 2 4, TILE_OFFSET_1 2 6, TILE_OFFSET_1 2 8, TILE_OFFSET_1 4 4,
   TILE_OFFSET_1 6 4, TILE_OFFSET_1 22 24, TILE_OFFSET_1 24 24, TILE_OFFSET_1 26 20,
   TILE_OFFSET_1 26 22, TILE_OFFSET_1 26 24,
   TILE_OFFSET_1 2 10, TILE_OFFSET_1 2 12, TILE_OFFSET_1 2 14, TILE_OFFSET_1 2 16,
   TILE_OFFSET_1 2 18, TILE_OFFSET_1 2 20, TILE_OFFSET_1 2 22, TILE_OFFSET_1 2 24,
   TILE_OFFSET_1 4 8, TILE_OFFSET_1 4 12, TILE_OFFSET_1 4 16, TILE_OFFSET_1 4 20,
   TILE_OFFSET_1 4 24,
   TILE_OFFSET_1 6 6, TILE_OFFSET_1 6 8, TILE_OFFSET_1 6 10, TILE_OFFSET_1 6 12,
   TILE_OFFSET_1 6 14, TILE_OFFSET_1 6 16, TILE_OFFSET_1 6 18, TILE_OFFSET_1 6 20,
   TILE_OFFSET_1 6 22, TILE_OFFSET_1 6 24,
   TILE_OFFSET_1 8 4, TILE_OFFSET_1 8 8, TILE_OFFSET_1 8 12, TILE_OFFSET_1 8 16,
   TILE_OFFSET_1 8 20, TILE_OFFSET_1 8 24,
   TILE_OFFSET_1 10 4, TILE_OFFSET_1 10 6, TILE_OFFSET_1 10 8, TILE_OFFSET_1 10 10,
   TILE_OFFSET_1 10 12, TILE_OFFSET_1 10 14, TILE_OFFSET_1 10 16, TILE_OFFSET_1 10 18,
   TILE_OFFSET_1 10 20, TILE_OFFSET_1 10 22, TILE_OFFSET_1 10 24,
   TILE_OFFSET_1 12 4, TILE_OFFSET_1 12 8, TILE_OFFSET_1 12 12, TILE_OFFSET_1 12 16,
   TILE_OFFSET_1 12 20, TILE_OFFSET_1 12 24,
   TILE_OFFSET_1 14 4, TILE_OFFSET_1 14 6, TILE_OFFSET_1 14 8, TILE_OFFSET_1 14 10,
   TILE_OFFSET_1 14 12, TILE_OFFSET_1 14 14, TILE_OFFSET_1 14 16, TILE_OFFSET_1 14 18,
   TILE_OFFSET_1 14 20, TILE_OFFSET_1 14 22, TILE_OFFSET_1 14 24,
   TILE_OFFSET_1 16 4, TILE_OFFSET_1 16 8, TILE_OFFSET_1 16 12, TILE_OFFSET_1 16 16,
   TILE_OFFSET_1 16 20, TILE_OFFSET_1 16 24,
   TILE_OFFSET_1 18 4, TILE_OFFSET_1 18 6, TILE_OFFSET_1 18 8, TILE_OFFSET_1 18 10,
   TILE_OFFSET_1 18 12, TILE_OFFSET_1 18 14, TILE_OFFSET_1 18 16, TILE_OFFSET_1 18 18,
   TILE_OFFSET_1 18 20, TILE_OFFSET_1 18 22, TILE_OFFSET_1 18 24,
   TILE_OFFSET_1 20 4, TILE_OFFSET_1 20 8, TILE_OFFSET_1 20 12, TILE_OFFSET_1 20 16,
   TILE_OFFSET_1 20 20, TILE_OFFSET_1 20 24,
   TILE_OFFSET_1 22 4, TILE_OFFSET_1 22 6, TILE_OFFSET_1 22 8, TILE_OFFSET_1 22 10,
   TILE_OFFSET_1 22 12, TILE_OFFSET_1 22 14, TILE_OFFSET_1 22 16, TILE_OFFSET_1 22 18,
   TILE_OFFSET_1 22 20, TILE_OFFSET_1 22 22,
   TILE_OFFSET_1 24 4, TILE_OFFSET_1 24 8, TILE_OFFSET_1 24 12, TILE_OFFSET_1 24 16,
   TILE_OFFSET_1 24 20,
   TILE_OFFSET_1 26 4, TILE_OFFSET_1 26 6, TILE_OFFSET_1 26 8, TILE_OFFSET_1 26 10,
   TILE_OFFSET_1 26 12, TILE_OFFSET_1 26 14, TILE_OFFSET_1 26 16, TILE_OFFSET_1 26 18]

/-- The full `update animated game field frames` loop of `handleGame`. -/
def tickFields (st : GameState) : GameState :=
  fieldElemIndex.foldl tickFieldAt st

/-- `tMoveAnimation` of `main.c`. -/
structure MoveAnimation where
  firstFrame : Nat
  flipX : Nat
deriving Repr, DecidableEq, Inhabited

/-- `moveAni` of `main.c`: maps `((dx + 1) << 2) + dy + 1` to the animation. -/
def moveAni : List MoveAnimation :=
  [⟨ACT_UP, 0⟩, ⟨ACT_SIDE, 1⟩, ⟨ACT_DOWN, 0⟩, ⟨ACT_DOWN, 0⟩,
   ⟨ACT_UP, 0⟩, ⟨ACT_DOWN, 0⟩, ⟨ACT_DOWN, 0⟩, ⟨ACT_DOWN, 0⟩,
   ⟨ACT_UP, 0⟩, ⟨ACT_SIDE, 0⟩, ⟨ACT_DOWN, 0⟩]

/-- Reference tile coordinate from a player pixel coordinate plus an offset:
the C expression `((uint8_t)(v + off) >> 3) & ~1`. -/
def tileCoord (v off : Nat) : Nat :=
  (((v + off) % 256) >>> 3) &&& 0xFE

/-- `canEnter` of `main.c`.  The C routine reads the globals `x`, `y`; they
are passed explicitly. -/
def canEnter (st : GameState) (o : Bool) (x y : Nat) : Bool :=
  let p := playerOf st o
  let t := fType (st.gameFieldLow (TILE_OFFSET_1 x y))
  if t = FTYPE_EMPTY ∨ t = FTYPE_PU_BOMB ∨ t = FTYPE_PU_RANGE ∨ t = FTYPE_PU_SPEED ∨
      t = FTYPE_FLAME then
    true
  else if t = FTYPE_BOMB_P1 ∨ t = FTYPE_BOMB_P2 then
    decide (p.lastBombIdx ≠ INVALID_LAST_BOMB_IDX ∧
      (p.bombList.getD p.lastBombIdx default).ttl > 0 ∧
      (p.bombList.getD p.lastBombIdx default).x = x ∧
      (p.bombList.getD p.lastBombIdx default).y = y)
  else false

/-- `checkPlayerCollision` of `main.c`: power-up pickup and flame hazard at
one corner of the player's bounding box. -/
def checkPlayerCollision (cfg : Cfg) (o : Bool) (xOffset yOffset : Nat)
    (st : GameState) : GameState :=
  let p := playerOf st o
  let x := tileCoord p.x xOffset
  let y := tileCoord p.y yOffset
  let m := TILE_OFFSET_1 x y
  let t := fType (st.gameFieldLow m)
  if t = FTYPE_PU_BOMB then
    let st1 :=
      if p.maxBombs < cfg.maxBombs then
        let p1 := { p with bombs := p.bombs + 1, maxBombs := p.maxBombs + 1 }
        let st1a := setPlayer o p1 st
        { st1a with
          gameFieldLow :=
            upd st1a.gameFieldLow (TILE_OFFSET (if o then 23 else 3) 1)
              (fg2NumText.getD p1.maxBombs 0)
          refreshLow := true }
      else st
    clearField m st1
  else if t = FTYPE_PU_RANGE then
    let st1 :=
      if p.range < cfg.maxRange then
        let p1 := { p with range := p.range + 1 }
        let st1a := setPlayer o p1 st
        { st1a with
          gameFieldLow :=
            upd st1a.gameFieldLow (TILE_OFFSET (if o then 27 else 7) 1)
              (fg2NumText.getD p1.range 0)
          refreshLow := true }
      else st
    clearField m st1
  else if t = FTYPE_PU_SPEED then
    clearField m (setPlayer o { p with running := BOOTS_TTL } st)
  else if t = FTYPE_FLAME then
    { st with winner := st.winner ||| (if o then WINNER_P1 else WINNER_P2) }
  else st

/-- The `handle bomb drop` block at the top of `handlePlayer` in `main.c`:
on the action key with a bomb available and an empty centre field, decrement
`bombs`, stamp the field (the code stamps `FIELD_BOMB_P1` for either
player), and fill the first free bomb slot. -/
def handleBombDrop (padA : Bool) (o : Bool) (st : GameState) : GameState :=
  let p := playerOf st o
  if padA && (p.bombs != 0) then
    let x := tileCoord p.x P_MID_X
    let y := tileCoord p.y P_MID_Y
    let m := TILE_OFFSET_1 x y
    if st.gameFieldLow m = FIELD_EMPTY then
      let st1 := setPlayer o { p with bombs := p.bombs - 1 } st
      let st2 := setField m FIELD_BOMB_P1 st1
      let p2 := playerOf st2 o
      match p2.bombList.findIdx? (fun bf => bf.ttl == 0) with
      | some i =>
        setPlayer o
          { p2 with
            bombList := p2.bombList.set i ⟨x, y, BOMB_TTL, 0, BOMB_ANIMATION⟩
            lastBombIdx := i } st2
      | none => st2
    else st
  else st

/-- The per-player directional input of one tick (`pad & KEY_*`). -/
structure Pad where
  a : Bool
  left : Bool
  right : Bool
  up : Bool
  down : Bool
deriving Repr, DecidableEq, Inhabited

/-- `dx` derived from the pad (`int8_t`, opposing keys cancel). -/
def padDx (pad : Pad) : Int :=
  (if pad.right then 1 else 0) - (if pad.left then 1 else 0)

/-- `dy` derived from the pad. -/
def padDy (pad : Pad) : Int :=
  (if pad.down then 1 else 0) - (if pad.up then 1 else 0)

/-- One iteration of the movement/animation/collision body of the
`for (i = 0; i < ds; ++i)` loop in `handlePlayer`. -/
def handlePlayerStep (cfg : Cfg) (pad : Pad) (o : Bool) (st : GameState) : GameState :=
  let dx := padDx pad
  let dy := padDy pad
  -- change x if not blocked (check collision with upper/lower 16x16 block)
  let st :=
    let p := playerOf st o
    let j := u8i ((p.x : Int) + dx)
    if dx > 0 then
      let x := tileCoord j P_RIGHT
      let b := canEnter st o x (tileCoord p.y P_TOP)
      if b && canEnter st o x (tileCoord p.y P_BOTTOM) then
        setPlayer o { p with x := j } { st with refreshSprites := true }
      else st
    else if dx < 0 then
      let x := tileCoord j P_LEFT
      let b := canEnter st o x (tileCoord p.y P_TOP)
      if b && canEnter st o x (tileCoord p.y P_BOTTOM) then
        setPlayer o { p with x := j } { st with refreshSprites := true }
      else st
    else st
  -- change y if not blocked (check collision with left/right 16x16 block)
  let st :=
    let p := playerOf st o
    let j := u8i ((p.y : Int) + dy)
    if dy > 0 then
      let y := tileCoord j P_BOTTOM
      let b := canEnter st o (tileCoord p.x P_LEFT) y
      if b && canEnter st o (tileCoord p.x P_RIGHT) y then
        setPlayer o { p with y := j } { st with refreshSprites := true }
      else st
    else if dy < 0 then
      let y := tileCoord j P_TOP
      let b := canEnter st o (tileCoord p.x P_LEFT) y
      if b && canEnter st o (tileCoord p.x P_RIGHT) y then
        setPlayer o { p with y := j } { st with refreshSprites := true }
      else st
    else st
  -- animation handling
  let st :=
    let p := playerOf st o
    if p.moving ≠ 0 then
      if dx ≠ 0 ∨ dy ≠ 0 then
        let j := ((dx + 1).toNat <<< 2) + (dy + 1).toNat
        if p.moveAniIdx ≠ j then
          let ma := moveAni.getD j default
          setPlayer o
            { p with
              firstFrame := ma.firstFrame
              curFrame := ma.firstFrame
              flipX := ma.flipX
              moveAniIdx := j
              ttlFrame := PLAYER_ANIMATION } { st with refreshSprites := true }
        else st
      else
        setPlayer o { p with curFrame := p.firstFrame, moving := 0 }
          { st with refreshSprites := true }
    else if dx ≠ 0 ∨ dy ≠ 0 then setPlayer o { p with moving := 1 } st
    else st
  -- exit from last bomb dropped handling
  let st :=
    let p := playerOf st o
    if p.moving ≠ 0 then
      if p.lastBombIdx ≠ INVALID_LAST_BOMB_IDX then
        let bf := p.bombList.getD p.lastBombIdx default
        let x1 := tileCoord p.x P_LEFT
        let x2 := tileCoord p.x P_RIGHT
        let y1 := tileCoord p.y P_TOP
        let y2 := tileCoord p.y P_BOTTOM
        if ¬ (x1 ≤ bf.x ∧ bf.x ≤ x2 ∧ y1 ≤ bf.y ∧ bf.y ≤ y2) then
          setPlayer o { p with lastBombIdx := INVALID_LAST_BOMB_IDX } st
        else st
      else st
    else st
  let st := checkPlayerCollision cfg o P_LEFT P_TOP st
  let st := checkPlayerCollision cfg o P_RIGHT P_TOP st
  let st := checkPlayerCollision cfg o P_LEFT P_BOTTOM st
  checkPlayerCollision cfg o P_RIGHT P_BOTTOM st

/-- `handlePlayer` of `main.c`: bomb drop, then the movement body once (or
twice while the speed boots are active). -/
def handlePlayer (cfg : Cfg) (pad : Pad) (o : Bool) (st : GameState) : GameState :=
  let st := handleBombDrop pad.a o st
  let ds := if (playerOf st o).running ≠ 0 then 2 else 1
  (List.range ds).foldl (fun s _ => handlePlayerStep cfg pad o s) st

/-- `convertNumber` of `main.c`: decimal digits as `fg2NumText` tiles,
least-significant first. -/
def convertNumber (value : Nat) : List Nat :=
  let d := fg2NumText.getD (value % 10) 0
  if h : value / 10 = 0 then [d]
  else
    have : value / 10 < value := by
      rcases Nat.eq_zero_or_pos value with h0 | h0
      · simp [h0] at h
      · exact Nat.div_lt_self h0 (by norm_num)
    d :: convertNumber (value / 10)
termination_by value

/-- Write a list of tile values at consecutive `gameFieldLow` indices. -/
def writeSeq (f : Nat → Nat) (index : Nat) : List Nat → Nat → Nat
  | [] => f
  | v :: r => writeSeq (upd f index v) (index + 1) r

/-- `writeNumWithUnit` of `main.c` on the in-memory low plane: up to `chars`
digits (most significant first), then the unit, then space padding. -/
def writeNumWithUnit (index chars value unit : Nat) (f : Nat → Nat) : Nat → Nat :=
  let ds := (convertNumber value).reverse.take chars
  let withUnit := if ds.length < chars then ds ++ [unit] else ds
  let padded := withUnit ++ List.replicate (chars - withUnit.length) CH_space
  writeSeq f index padded

/-- The `update time related variables` block of one 10Hz tick of
`handleGame` (counter increment, second countdown, game-over timer and the
draw decision). -/
def timerStep (st : GameState) : GameState :=
  let st := { st with counter10Hz := (st.counter10Hz + 1) % 65536 }
  let st := { st with untilSecond := st.untilSecond - 1 }
  if st.untilSecond = 0 then
    let st := { st with untilSecond := 10, gameOver := st.gameOver - 1 }
    if st.gameOver = 0 then { st with winner := WINNER_DRAW }
    else
      { st with
        gameFieldLow := writeNumWithUnit (TILE_OFFSET 15 1) 4 st.gameOver CH_s st.gameFieldLow
        refreshLow := true }
  else st

/-- The `update running states` block of one 10Hz tick. -/
def runningStep (st : GameState) : GameState :=
  let st :=
    if st.p1.running ≠ 0 then { st with p1 := { st.p1 with running := st.p1.running - 1 } }
    else st
  if st.p2.running ≠ 0 then { st with p2 := { st.p2 with running := st.p2.running - 1 } }
  else st

/-- The `update player N animation frame` block of one 10Hz tick. -/
def playerAnimStep (o : Bool) (st : GameState) : GameState :=
  let p := playerOf st o
  if p.moving ≠ 0 then
    let tf := p.ttlFrame - 1
    if tf = 0 then
      let c := (p.curFrame + 1) % 256
      let c1 := if 2 < (c + 256 - p.firstFrame) % 256 then p.firstFrame else c
      setPlayer o { p with ttlFrame := PLAYER_ANIMATION, curFrame := c1 }
        { st with refreshSprites := true }
    else setPlayer o { p with ttlFrame := tf } st
  else st

/-- One full 10Hz simulation tick of `handleGame` (timer, boots timers,
player animation, field decay, bombs and chain reactions). -/
def tick10Hz (st : GameState) : GameState :=
  let st := timerStep st
  let st := runningStep st
  let st := playerAnimStep false st
  let st := playerAnimStep true st
  let st := tickFields st
  tickBombs st

/-- One frame of `handleGame` (pause handling and the winner-screen switch
are outside the simulation): the 10Hz block when `framesUntil10Hz` expired
(`tenHz`), then both players' input handling. -/
def frameStep (cfg : Cfg) (pad0 pad1 : Pad) (tenHz : Bool) (st : GameState) : GameState :=
  let st := if tenHz then tick10Hz st else st
  let st := handlePlayer cfg pad0 false st
  handlePlayer cfg pad1 true st

/-! ## Basic reading lemmas for the byte-plane updates -/

theorem upd_at (f : Nat → Nat) (i v : Nat) : upd f i v i = v := by
  simp [upd]

theorem upd_out (f : Nat → Nat) (i v n : Nat) (h : n ≠ i) : upd f i v n = f n := by
  simp [upd, h]

theorem updQuad_at0 (f : Nat → Nat) (m v0 v1 v2 v3 : Nat) :
    updQuad f m v0 v1 v2 v3 m = v0 := by
  unfold updQuad upd
  rw [if_neg (by omega), if_neg (by omega), if_neg (by omega), if_pos rfl]

theorem updQuad_at1 (f : Nat → Nat) (m v0 v1 v2 v3 : Nat) :
    updQuad f m v0 v1 v2 v3 (m + 1) = v1 := by
  unfold updQuad upd
  rw [if_neg (by omega), if_neg (by omega), if_pos rfl]

theorem updQuad_at2 (f : Nat → Nat) (m v0 v1 v2 v3 : Nat) :
    updQuad f m v0 v1 v2 v3 (m + 0x20) = v2 := by
  unfold updQuad upd
  rw [if_neg (by omega), if_pos rfl]

theorem updQuad_at3 (f : Nat → Nat) (m v0 v1 v2 v3 : Nat) :
    updQuad f m v0 v1 v2 v3 (m + 0x21) = v3 := by
  unfold updQuad upd
  rw [if_pos rfl]

theorem updQuad_out (f : Nat → Nat) (m v0 v1 v2 v3 n : Nat) (h0 : n ≠ m) (h1 : n ≠ m + 1)
    (h2 : n ≠ m + 0x20) (h3 : n ≠ m + 0x21) : updQuad f m v0 v1 v2 v3 n = f n := by
  unfold updQuad upd
  rw [if_neg h3, if_neg h2, if_neg h1, if_neg h0]

/-! ## C5 / C9: the per-cell propagation rule of `handleExplodedField` -/

/-- C5: Per-cell propagation rule: a Solid cell stops the walk with no
effect; a Bricked cell stops the walk and is ignited into its decay
animation only if its animation frame is 0; a PowerUp cell of any kind is
reverted to Empty and stops the walk; an Empty cell becomes a flame segment
(end-cap base tile on the last range step, through-segment base otherwise,
oriented by the attribute's flip bits) and the walk continues; a Flame cell
is re-stamped and the walk continues. -/
theorem c5_per_cell_propagation (attr part endt x y m j : Nat) (st : GameState) :
    (fType (st.gameFieldLow m) = FTYPE_SOLID →
      handleExplodedField attr part endt x y m j st = (false, st)) ∧
    (fType (st.gameFieldLow m) = FTYPE_BRICKED → st.aniField m = 0 →
      (handleExplodedField attr part endt x y m j st).1 = false ∧
      (handleExplodedField attr part endt x y m j st).2.aniField m = 4 ∧
      (handleExplodedField attr part endt x y m j st).2.ttlField m = EXPLOSION_ANIMATION ∧
      (handleExplodedField attr part endt x y m j st).2.gameFieldLow m = FIELD_BRICKED + 2) ∧
    (fType (st.gameFieldLow m) = FTYPE_BRICKED → st.aniField m ≠ 0 →
      handleExplodedField attr part endt x y m j st = (false, st)) ∧
    (fType (st.gameFieldLow m) = FTYPE_PU_BOMB ∨ fType (st.gameFieldLow m) = FTYPE_PU_RANGE ∨
        fType (st.gameFieldLow m) = FTYPE_PU_SPEED →
      handleExplodedField attr part endt x y m j st = (false, clearField m st)) ∧
    (fType (st.gameFieldLow m) = FTYPE_EMPTY →
      (handleExplodedField attr part endt x y m j st).1 = true ∧
      (handleExplodedField attr part endt x y m j st).2.aniField m = 4 ∧
      (handleExplodedField attr part endt x y m j st).2.ttlField m = EXPLOSION_ANIMATION ∧
      (handleExplodedField attr part endt x y m j st).2.gameFieldHigh m = attr ∧
      (handleExplodedField attr part endt x y m j st).2.gameFieldLow m =
        (if attr &&& 0x80 ≠ 0 then ((if j = 1 then endt else part) + 0x10) % 256
         else if attr &&& 0x40 ≠ 0 then ((if j = 1 then endt else part) + 1) % 256
         else (if j = 1 then endt else part) % 256)) ∧
    (fType (st.gameFieldLow m) = FTYPE_FLAME →
      (handleExplodedField attr part endt x y m j st).1 = true) := by
  refine ⟨?_, ?_, ?_, ?_, ?_, ?_⟩
  · intro h
    simp [handleExplodedField, h, FTYPE_EMPTY, FTYPE_FLAME, FTYPE_PU_BOMB, FTYPE_PU_RANGE,
      FTYPE_PU_SPEED, FTYPE_SOLID, FTYPE_BOMB_P1, FTYPE_BOMB_P2, FTYPE_BRICKED]
  · intro h ha
    simp only [handleExplodedField, h, FTYPE_EMPTY, FTYPE_FLAME, FTYPE_PU_BOMB, FTYPE_PU_RANGE,
      FTYPE_PU_SPEED, FTYPE_SOLID, FTYPE_BOMB_P1, FTYPE_BOMB_P2, FTYPE_BRICKED]
    norm_num [ha, setField, setFieldAttr, updQuad_at0, upd_at, upd_out, FIELD_BRICKED]
  · intro h ha
    simp only [handleExplodedField, h, FTYPE_EMPTY, FTYPE_FLAME, FTYPE_PU_BOMB, FTYPE_PU_RANGE,
      FTYPE_PU_SPEED, FTYPE_SOLID, FTYPE_BOMB_P1, FTYPE_BOMB_P2, FTYPE_BRICKED]
    norm_num [ha]
  · rintro (h | h | h) <;>
      simp [handleExplodedField, h, FTYPE_EMPTY, FTYPE_FLAME, FTYPE_PU_BOMB, FTYPE_PU_RANGE,
        FTYPE_PU_SPEED, FTYPE_SOLID, FTYPE_BOMB_P1, FTYPE_BOMB_P2, FTYPE_BRICKED]
  · intro h
    simp only [handleExplodedField, h, FTYPE_EMPTY, FTYPE_FLAME, FTYPE_PU_BOMB, FTYPE_PU_RANGE,
      FTYPE_PU_SPEED, FTYPE_SOLID, FTYPE_BOMB_P1, FTYPE_BOMB_P2, FTYPE_BRICKED]
    norm_num [setField, setFieldFlippedX, setFieldFlippedY, setFieldAttr, updQuad_at0, upd_at]
    by_cases h80 : attr &&& 128 = 0 <;> by_cases h40 : attr &&& 64 = 0 <;>
      simp [h80, h40, setField, setFieldFlippedX, setFieldFlippedY, setFieldAttr, updQuad_at0,
        upd_at]
  · intro h
    simp [handleExplodedField, h, FTYPE_EMPTY, FTYPE_FLAME, FTYPE_PU_BOMB, FTYPE_PU_RANGE,
      FTYPE_PU_SPEED, FTYPE_SOLID, FTYPE_BOMB_P1, FTYPE_BOMB_P2, FTYPE_BRICKED]

/-- A quiescent player as produced by `initializeGame`. -/
def pBase : Player where
  x := 2 * 8
  y := 4 * 8
  firstFrame := ACT_DOWN
  curFrame := ACT_DOWN
  flipX := 0
  moveAniIdx := 5
  ttlFrame := 0
  moving := 0
  range := 1
  maxBombs := 1
  bombs := 1
  running := 0
  bombList := List.replicate MAX_BOMBS default
  lastBombIdx := INVALID_LAST_BOMB_IDX

/-- A concrete all-empty game state used by the concrete instantiations. -/
def stBase : GameState where
  gameFieldLow := fun _ => FIELD_EMPTY
  gameFieldHigh := fun _ => 0
  aniField := fun _ => 0
  ttlField := fun _ => 0
  p1 := pBase
  p2 := pBase
  bombChain := []
  dets := []
  winner := WINNER_NA
  gameOver := DEF_MAX_TIME
  untilSecond := 10
  counter10Hz := 0
  lrngState := 1
  dropRate255 := dropRate255of DEF_DROP_RATE
  refreshLow := false
  refreshHigh := false
  refreshSprites := false

/-- All-solid variant of the base state. -/
def stSolidW : GameState := { stBase with gameFieldLow := fun _ => FIELD_SOLID }

/-- C5 witness: a walk step onto a Solid cell stops with no effect. -/
theorem c5_per_cell_propagation_witness :
    fType (stSolidW.gameFieldLow 133) = FTYPE_SOLID ∧
    handleExplodedField 44 FIELD_EXPL_PART_X FIELD_EXPL_END_X 2 4 133 1 stSolidW =
      (false, stSolidW) :=
  ⟨by decide,
   (c5_per_cell_propagation 44 FIELD_EXPL_PART_X FIELD_EXPL_END_X 2 4 133 1 stSolidW).1
     (by decide)⟩

/-- C9: when a propagation step reaches a cell already classified as Flame,
the cell's visual tile and attribute are re-stamped (combined-attribute
re-stamp), but the cell's decay ttl counter and animation frame counter are
left unchanged, and the walk continues. -/
theorem c9_crossing_flame_restamp (attr part endt x y m j : Nat) (st : GameState)
    (h : fType (st.gameFieldLow m) = FTYPE_FLAME) :
    (handleExplodedField attr part endt x y m j st).1 = true ∧
    (handleExplodedField attr part endt x y m j st).2.aniField = st.aniField ∧
    (handleExplodedField attr part endt x y m j st).2.ttlField = st.ttlField ∧
    (handleExplodedField attr part endt x y m j st).2.gameFieldHigh m = TILE_ATTR 0 0 1 3 ∧
    (handleExplodedField attr part endt x y m j st).2.gameFieldLow m =
      u8i ((FIELD_EXPL_MID : Int) + 2 * (4 - (st.aniField m : Int))) := by
  simp only [handleExplodedField, h, FTYPE_EMPTY, FTYPE_FLAME, FTYPE_PU_BOMB, FTYPE_PU_RANGE,
    FTYPE_PU_SPEED, FTYPE_SOLID, FTYPE_BOMB_P1, FTYPE_BOMB_P2, FTYPE_BRICKED]
  norm_num [setFieldInt, setFieldAttr, updQuad_at0]

/-- All-flame variant of the base state with a mid-decay animation counter. -/
def stFlameW : GameState :=
  { stBase with gameFieldLow := fun _ => FIELD_EXPL_MID, aniField := fun _ => 2 }

/-- C9 witness: crossing an already burning cell keeps its decay counters. -/
theorem c9_crossing_flame_restamp_witness :
    fType (stFlameW.gameFieldLow 133) = FTYPE_FLAME ∧
    (handleExplodedField 44 FIELD_EXPL_PART_X FIELD_EXPL_END_X 2 4 133 1 stFlameW).1 = true ∧
    (handleExplodedField 44 FIELD_EXPL_PART_X FIELD_EXPL_END_X 2 4 133 1
        stFlameW).2.aniField = stFlameW.aniField ∧
    (handleExplodedField 44 FIELD_EXPL_PART_X FIELD_EXPL_END_X 2 4 133 1
        stFlameW).2.ttlField = stFlameW.ttlField :=
  ⟨by decide,
   (c9_crossing_flame_restamp 44 FIELD_EXPL_PART_X FIELD_EXPL_END_X 2 4 133 1 stFlameW
       (by decide)).1,
   (c9_crossing_flame_restamp 44 FIELD_EXPL_PART_X FIELD_EXPL_END_X 2 4 133 1 stFlameW
       (by decide)).2.1,
   (c9_crossing_flame_restamp 44 FIELD_EXPL_PART_X FIELD_EXPL_END_X 2 4 133 1 stFlameW
       (by decide)).2.2.1⟩

/-! ## C10: power-up pickup at the configured cap -/

/-- C10: if a corner of the player's bounding box lies on a PowerUp-Bomb
cell while the player's `maxBombs` already reached the configured maximum
(resp. a PowerUp-Range cell while `range` reached the configured maximum),
the player's counters are left unchanged but the 2x2 power-up field element
is still cleared to Empty.  The trailing conjuncts spell out that
`clearField` leaves both players untouched and blanks the four tiles. -/
theorem c10_pickup_at_cap (cfg : Cfg) (o : Bool) (xOff yOff : Nat) (st : GameState) :
    (fType (st.gameFieldLow
        (TILE_OFFSET_1 (tileCoord (playerOf st o).x xOff) (tileCoord (playerOf st o).y yOff))) =
          FTYPE_PU_BOMB →
      cfg.maxBombs ≤ (playerOf st o).maxBombs →
      checkPlayerCollision cfg o xOff yOff st =
        clearField
          (TILE_OFFSET_1 (tileCoord (playerOf st o).x xOff) (tileCoord (playerOf st o).y yOff))
          st) ∧
    (fType (st.gameFieldLow
        (TILE_OFFSET_1 (tileCoord (playerOf st o).x xOff) (tileCoord (playerOf st o).y yOff))) =
          FTYPE_PU_RANGE →
      cfg.maxRange ≤ (playerOf st o).range →
      checkPlayerCollision cfg o xOff yOff st =
        clearField
          (TILE_OFFSET_1 (tileCoord (playerOf st o).x xOff) (tileCoord (playerOf st o).y yOff))
          st) ∧
    (∀ m : Nat, (clearField m st).p1 = st.p1 ∧ (clearField m st).p2 = st.p2 ∧
      (clearField m st).gameFieldLow m = FIELD_EMPTY ∧
      (clearField m st).gameFieldLow (m + 1) = FIELD_EMPTY ∧
      (clearField m st).gameFieldLow (m + 0x20) = FIELD_EMPTY ∧
      (clearField m st).gameFieldLow (m + 0x21) = FIELD_EMPTY) := by
  refine ⟨?_, ?_, ?_⟩
  · intro h hc
    simp only [checkPlayerCollision, h, FTYPE_PU_BOMB, FTYPE_PU_RANGE, FTYPE_PU_SPEED,
      FTYPE_FLAME]
    norm_num [Nat.not_lt.mpr hc]
  · intro h hc
    simp only [checkPlayerCollision, h, FTYPE_PU_BOMB, FTYPE_PU_RANGE, FTYPE_PU_SPEED,
      FTYPE_FLAME]
    norm_num [Nat.not_lt.mpr hc]
  · intro m
    refine ⟨rfl, rfl, ?_, ?_, ?_, ?_⟩ <;>
      simp [clearField, updQuad_at0, updQuad_at1, updQuad_at2, updQuad_at3]

/-- All-power-up variant of the base state (bomb power-up everywhere). -/
def stPuW : GameState := { stBase with gameFieldLow := fun _ => FIELD_PU_BOMB }

/-- C10 witness: at the configured cap (`maxBombs = 1` for the base player)
the pickup is a pure consume. -/
theorem c10_pickup_at_cap_witness :
    fType (stPuW.gameFieldLow
      (TILE_OFFSET_1 (tileCoord (playerOf stPuW false).x P_LEFT)
        (tileCoord (playerOf stPuW false).y P_TOP))) = FTYPE_PU_BOMB ∧
    ({ maxBombs := 1, maxRange := 1 } : Cfg).maxBombs ≤ (playerOf stPuW false).maxBombs ∧
    checkPlayerCollision { maxBombs := 1, maxRange := 1 } false P_LEFT P_TOP stPuW =
      clearField
        (TILE_OFFSET_1 (tileCoord (playerOf stPuW false).x P_LEFT)
          (tileCoord (playerOf stPuW false).y P_TOP)) stPuW :=
  ⟨by decide, by decide,
   (c10_pickup_at_cap { maxBombs := 1, maxRange := 1 } false P_LEFT P_TOP stPuW).1 (by decide)
     (by decide)⟩

/-! ## `findIdx?` helper facts -/

theorem findIdx?_go_some {α : Type} [Inhabited α] (p : α → Bool) :
    ∀ (l : List α) (s i : Nat), List.findIdx? p l s = some i →
      s ≤ i ∧ i - s < l.length ∧ p (l.getD (i - s) default) = true := by
  intro l
  induction l with
  | nil => intro s i h; simp [List.findIdx?_nil] at h
  | cons a t ih =>
    intro s i h
    rw [List.findIdx?_cons] at h
    by_cases hp : p a = true
    · rw [if_pos hp] at h
      obtain rfl : s = i := by simpa using h
      simpa using hp
    · rw [if_neg hp] at h
      obtain ⟨h1, h2, h3⟩ := ih (s + 1) i h
      refine ⟨by omega, by simpa using by omega, ?_⟩
      have : i - s = (i - (s + 1)) + 1 := by omega
      rw [this]
      simpa using h3

theorem findIdx?_some {α : Type} [Inhabited α] (p : α → Bool) (l : List α) (i : Nat)
    (h : List.findIdx? p l = some i) : i < l.length ∧ p (l.getD i default) = true := by
  have := findIdx?_go_some p l 0 i h
  simpa using this

/-! ## C1: bomb placement (placement bookkeeping is right, but the code
stamps the player 1 bomb tile for either player) -/

/-- Player 2 at its starting position over an all-empty field, pressing the
action key. -/
def stDropW : GameState := { stBase with p2 := { pBase with x := 26 * 8, y := 24 * 8 } }

/-- C1: evaluation of `handleBombDrop` at the failing input.  Player 2 drops
a bomb on the empty centre cell (2x2 element at tile (26,24)); the bombs
counter, free-slot allocation and `lastBombIdx` behave as the claim states,
but the field element is stamped with `FIELD_BOMB_P1` — the player 1 bomb
tile — although the dropping player is player 2 (`setField(field,
FIELD_BOMB_P1)` in `handlePlayer` is unconditional).  The per-tick bomb
animation of the very same bomb later re-stamps it with `FIELD_BOMB_P2`
tiles, and the chain-reaction lookup dispatches on the stamped tile type,
so a fresh player 2 bomb is not found by `handleExplodedField`'s
`FTYPE_BOMB_P2` branch. -/
theorem c1_p2_drop_stamps_p1_tile :
    stDropW.gameFieldLow (TILE_OFFSET_1 26 24) = FIELD_EMPTY ∧
    stDropW.p2.bombs = 1 ∧
    (handleBombDrop true true stDropW).gameFieldLow (TILE_OFFSET_1 26 24) = FIELD_BOMB_P1 ∧
    fType FIELD_BOMB_P1 = FTYPE_BOMB_P1 ∧
    FTYPE_BOMB_P1 ≠ FTYPE_BOMB_P2 ∧
    (handleBombDrop true true stDropW).p2.bombs = 0 ∧
    (handleBombDrop true true stDropW).p2.lastBombIdx = 0 ∧
    (handleBombDrop true true stDropW).p2.bombList.getD 0 default =
      ⟨26, 24, BOMB_TTL, 0, BOMB_ANIMATION⟩ := by
  decide

/-! ## C2: chain-trigger bookkeeping and the recorded range -/

/-- Player 1 bomb at element (4,4) about to explode with `p1.range = 2`. -/
def blC2a : List BombField :=
  (List.replicate MAX_BOMBS (default : BombField)).set 0 ⟨4, 4, 1, 0, 2⟩

/-- Player 2 bomb at element (6,4), still alive, owner range 3. -/
def blC2b : List BombField :=
  (List.replicate MAX_BOMBS (default : BombField)).set 0 ⟨6, 4, 10, 0, 2⟩

/-- State for the chain-trigger counterexample: adjacent bombs of the two
players, with different ranges. -/
def stC2 : GameState :=
  { stBase with
    p1 := { pBase with range := 2, bombList := blC2a }
    p2 := { pBase with range := 3, bombList := blC2b }
    gameFieldLow :=
      updQuad stBase.gameFieldLow (TILE_OFFSET_1 6 4) FIELD_BOMB_P2 (FIELD_BOMB_P2 + 1)
        (FIELD_BOMB_P2 + 0x10) (FIELD_BOMB_P2 + 0x11) }

/-- C2 counterexample: the attacking explosion (player 1's bomb, detonated
with the attacker's original range 2) reaches player 2's live bomb; the
enqueued `TriggeredBomb` records range 3 — the triggered bomb owner's
current range — not the attacker's range 2, contradicting the claim. -/
theorem c2_recorded_range_counterexample :
    stC2.p1.range = 2 ∧ stC2.p2.range = 3 ∧
    (handleExplosion 2 false 0 stC2).bombChain.map TriggeredBomb.range = [3] ∧
    ((handleExplosion 2 false 0 stC2).bombChain.map TriggeredBomb.range = [2] → False) ∧
    ((handleExplosion 2 false 0 stC2).p2.bombList.getD 0 default).ttl = 0 ∧
    (handleExplosion 2 false 0 stC2).p2.bombs = 2 := by
  decide

/-- C2 (amended): when an explosion propagation step reaches a cell holding
an unexploded bomb of either owner, the bomb is looked up by position among
its owner's live bombs, its ttl is immediately zeroed, the owner is credited
a bomb, and the enqueued `TriggeredBomb` records the *triggered bomb
owner's* current range (not the attacker's). -/
theorem c2_chain_trigger_records_owner_range (attr part endt x y m j j2 : Nat)
    (st : GameState) :
    (fType (st.gameFieldLow m) = FTYPE_BOMB_P1 →
      st.p1.bombList.findIdx? (fun bf => bf.ttl != 0 && bf.x == x && bf.y == y) = some j2 →
      (st.p1.bombList.getD j2 default).ttl ≠ 0 ∧
      (st.p1.bombList.getD j2 default).x = x ∧ (st.p1.bombList.getD j2 default).y = y ∧
      (handleExplodedField attr part endt x y m j st).1 = false ∧
      ((handleExplodedField attr part endt x y m j st).2.p1.bombList.getD j2 default).ttl = 0 ∧
      (handleExplodedField attr part endt x y m j st).2.p1.bombs = st.p1.bombs + 1 ∧
      (handleExplodedField attr part endt x y m j st).2.bombChain =
        st.bombChain ++ [{ range := st.p1.range, owner := false, idx := j2 }]) ∧
    (fType (st.gameFieldLow m) = FTYPE_BOMB_P2 →
      st.p2.bombList.findIdx? (fun bf => bf.ttl != 0 && bf.x == x && bf.y == y) = some j2 →
      (st.p2.bombList.getD j2 default).ttl ≠ 0 ∧
      (st.p2.bombList.getD j2 default).x = x ∧ (st.p2.bombList.getD j2 default).y = y ∧
      (handleExplodedField attr part endt x y m j st).1 = false ∧
      ((handleExplodedField attr part endt x y m j st).2.p2.bombList.getD j2 default).ttl = 0 ∧
      (handleExplodedField attr part endt x y m j st).2.p2.bombs = st.p2.bombs + 1 ∧
      (handleExplodedField attr part endt x y m j st).2.bombChain =
        st.bombChain ++ [{ range := st.p2.range, owner := true, idx := j2 }]) := by
  constructor
  · intro h hf
    obtain ⟨hlen, hp⟩ := findIdx?_some _ _ _ hf
    simp only [Bool.and_eq_true, bne_iff_ne, ne_eq, beq_iff_eq] at hp
    refine ⟨hp.1.1, hp.1.2, hp.2, ?_⟩
    simp only [handleExplodedField, h, FTYPE_EMPTY, FTYPE_FLAME, FTYPE_PU_BOMB, FTYPE_PU_RANGE,
      FTYPE_PU_SPEED, FTYPE_SOLID, FTYPE_BOMB_P1, FTYPE_BOMB_P2, FTYPE_BRICKED]
    norm_num [hf]
    rw [List.getElem?_set_self (by simpa using hlen)]
    simp
  · intro h hf
    obtain ⟨hlen, hp⟩ := findIdx?_some _ _ _ hf
    simp only [Bool.and_eq_true, bne_iff_ne, ne_eq, beq_iff_eq] at hp
    refine ⟨hp.1.1, hp.1.2, hp.2, ?_⟩
    simp only [handleExplodedField, h, FTYPE_EMPTY, FTYPE_FLAME, FTYPE_PU_BOMB, FTYPE_PU_RANGE,
      FTYPE_PU_SPEED, FTYPE_SOLID, FTYPE_BOMB_P1, FTYPE_BOMB_P2, FTYPE_BRICKED]
    norm_num [hf]
    rw [List.getElem?_set_self (by simpa using hlen)]
    simp

/-- C2 amended-claim witness: the concrete chain trigger of the
counterexample state run through the per-cell rule. -/
theorem c2_chain_trigger_records_owner_range_witness :
    fType (stC2.gameFieldLow (TILE_OFFSET_1 6 4)) = FTYPE_BOMB_P2 ∧
    stC2.p2.bombList.findIdx? (fun bf => bf.ttl != 0 && bf.x == 6 && bf.y == 4) = some 0 ∧
    (handleExplodedField 44 FIELD_EXPL_PART_X FIELD_EXPL_END_X 6 4 (TILE_OFFSET_1 6 4) 2
        stC2).2.bombChain = [{ range := stC2.p2.range, owner := true, idx := 0 }] :=
  ⟨by decide, by decide, by
    have h := (c2_chain_trigger_records_owner_range 44 FIELD_EXPL_PART_X FIELD_EXPL_END_X 6 4
      (TILE_OFFSET_1 6 4) 2 0 stC2).2 (by decide) (by decide)
    have h2 := h.2.2.2.2.2.2
    rw [h2]
    decide⟩

/-! ## C3: drop-rate round trip -/

/-- A bricked wall element at (2,4) on its last decay frame, with an RNG
state whose next 16-bit draw is 256 (low byte 0), in a round initialized
with `dropRate = 0`. -/
def stC3 : GameState :=
  { stBase with
    gameFieldLow :=
      updQuad stBase.gameFieldLow (TILE_OFFSET_1 2 4) (FIELD_BRICKED + 2) (FIELD_BRICKED + 3)
        (FIELD_BRICKED + 2 + 0x10) (FIELD_BRICKED + 3 + 0x10)
    aniField := upd stBase.aniField (TILE_OFFSET_1 2 4) 1
    ttlField := upd stBase.ttlField (TILE_OFFSET_1 2 4) 1
    lrngState := 273
    dropRate255 := dropRate255of 0 }

/-- C3 counterexample: with `dropRate = 0` (so `dropRate255 = 0`) the
finalized bricked-wall decay still spawns a power-up whenever the draw's low
byte is 0 — the comparison in `handleGame` is `(uint8_t)m <= dropRate255`,
which is satisfied by a zero low byte.  At RNG state 273 the next draw is
256, and the decayed element becomes a bomb power-up instead of Empty. -/
theorem c3_droprate0_counterexample :
    dropRate255of 0 = 0 ∧ stC3.dropRate255 = 0 ∧
    (lrngDraw stC3.lrngState).1 = 256 ∧ (lrngDraw stC3.lrngState).1 % 256 = 0 ∧
    stC3.gameFieldLow (TILE_OFFSET_1 2 4) = FIELD_BRICKED + 2 ∧
    (tickFieldAt stC3 (TILE_OFFSET_1 2 4)).gameFieldLow (TILE_OFFSET_1 2 4) = FIELD_PU_BOMB ∧
    FIELD_PU_BOMB ≠ FIELD_EMPTY := by
  decide

/-- C3 (amended): on a finalized bricked-wall decay the power-up dice uses
the comparison `low byte of draw ≤ dropRate255`; hence with `dropRate = 100`
(`dropRate255 = 255`) every finalized decay spawns a power-up, while with
`dropRate = 0` (`dropRate255 = 0`) a decay spawns a power-up exactly when the
draw's low byte is 0 (and reverts to Empty otherwise) — not never, as the
claim states. -/
theorem c3_droprate_spawn_rule (st : GameState) (k : Nat)
    (ht : st.ttlField k = 1) (ha : st.aniField k = 1)
    (hb : st.gameFieldLow k = FIELD_BRICKED + 2 ∨ st.gameFieldLow k = FIELD_BRICKED + 4) :
    ((lrngDraw st.lrngState).1 % 256 ≤ st.dropRate255 →
      (tickFieldAt st k).gameFieldLow k = FIELD_PU_BOMB ∨
      (tickFieldAt st k).gameFieldLow k = FIELD_PU_RANGE ∨
      (tickFieldAt st k).gameFieldLow k = FIELD_PU_SPEED) ∧
    (st.dropRate255 < (lrngDraw st.lrngState).1 % 256 →
      (tickFieldAt st k).gameFieldLow k = FIELD_EMPTY) ∧
    (st.dropRate255 = 255 →
      (tickFieldAt st k).gameFieldLow k = FIELD_PU_BOMB ∨
      (tickFieldAt st k).gameFieldLow k = FIELD_PU_RANGE ∨
      (tickFieldAt st k).gameFieldLow k = FIELD_PU_SPEED) ∧
    (st.dropRate255 = 0 →
      ((tickFieldAt st k).gameFieldLow k ≠ FIELD_EMPTY ↔
        (lrngDraw st.lrngState).1 % 256 = 0)) ∧
    dropRate255of 100 = 255 ∧ dropRate255of 0 = 0 := by
  have key : ((lrngDraw st.lrngState).1 % 256 ≤ st.dropRate255 →
      (tickFieldAt st k).gameFieldLow k = FIELD_PU_BOMB ∨
      (tickFieldAt st k).gameFieldLow k = FIELD_PU_RANGE ∨
      (tickFieldAt st k).gameFieldLow k = FIELD_PU_SPEED) ∧
      (st.dropRate255 < (lrngDraw st.lrngState).1 % 256 →
        (tickFieldAt st k).gameFieldLow k = FIELD_EMPTY) := by
    constructor
    · intro hcmp
      rcases hb with hb | hb <;>
      · simp only [tickFieldAt, ht, ha, hb, upd_at, FIELD_BRICKED] <;>
        norm_num [hcmp]
        split_ifs <;>
          simp [setFieldAttr, setField, updQuad_at0, FIELD_PU_BOMB, FIELD_PU_RANGE,
            FIELD_PU_SPEED]
    · intro hcmp
      rcases hb with hb | hb <;>
      · simp only [tickFieldAt, ht, ha, hb, upd_at, FIELD_BRICKED] <;>
        norm_num [Nat.not_le.mpr hcmp, Nat.not_lt.mpr (le_of_lt hcmp)]
        simp [setFieldAttr, clearField, updQuad_at0, FIELD_EMPTY]
  refine ⟨key.1, key.2, ?_, ?_, by decide, by decide⟩
  · intro h255
    exact key.1 (by rw [h255]; omega)
  · intro h0
    constructor
    · intro hne
      by_contra hnz
      exact hne (key.2 (by omega))
    · intro hz
      rcases key.1 (by omega) with h | h | h <;> rw [h] <;> decide

/-- The counterexample state re-initialized with `dropRate = 100`. -/
def stC3b : GameState := { stC3 with dropRate255 := dropRate255of 100 }

/-- C3 amended-claim witness: with `dropRate = 100` the concrete decayed
bricked wall spawns a power-up. -/
theorem c3_droprate_spawn_rule_witness :
    stC3b.ttlField (TILE_OFFSET_1 2 4) = 1 ∧ stC3b.aniField (TILE_OFFSET_1 2 4) = 1 ∧
    stC3b.gameFieldLow (TILE_OFFSET_1 2 4) = FIELD_BRICKED + 2 ∧
    stC3b.dropRate255 = 255 ∧
    ((tickFieldAt stC3b (TILE_OFFSET_1 2 4)).gameFieldLow (TILE_OFFSET_1 2 4) = FIELD_PU_BOMB ∨
     (tickFieldAt stC3b (TILE_OFFSET_1 2 4)).gameFieldLow (TILE_OFFSET_1 2 4) = FIELD_PU_RANGE ∨
     (tickFieldAt stC3b (TILE_OFFSET_1 2 4)).gameFieldLow (TILE_OFFSET_1 2 4) =
       FIELD_PU_SPEED) :=
  ⟨by decide, by decide, by decide, by decide,
   (c3_droprate_spawn_rule stC3b (TILE_OFFSET_1 2 4) (by decide) (by decide)
       (Or.inl (by decide))).2.2.1 (by decide)⟩

/-! ## C8: the game timer -/

/-- Projections of one timer block step. -/
theorem timerStep_proj (st : GameState) :
    (timerStep st).gameOver = (if st.untilSecond - 1 = 0 then st.gameOver - 1 else st.gameOver) ∧
    (timerStep st).untilSecond = (if st.untilSecond - 1 = 0 then 10 else st.untilSecond - 1) ∧
    (timerStep st).winner =
      (if st.untilSecond - 1 = 0 ∧ st.gameOver - 1 = 0 then WINNER_DRAW else st.winner) := by
  by_cases h1 : st.untilSecond - 1 = 0 <;> by_cases h2 : st.gameOver - 1 = 0 <;>
    simp only [timerStep, h1, h2, if_true, if_false, and_self, and_false, false_and,
      if_pos, ite_true, ite_false, not_true, not_false_iff] <;> simp [h1, h2]

/-- Closed-form characterization of iterating the timer block: for the
first 1799 ticks the countdown follows `180 - n / 10` seconds and no winner
is set. -/
theorem timerStep_char (st : GameState) (h180 : st.gameOver = 180)
    (h10 : st.untilSecond = 10) (hw : st.winner = WINNER_NA) :
    ∀ n, n ≤ 1799 →
      (timerStep^[n] st).gameOver = 180 - n / 10 ∧
      (timerStep^[n] st).untilSecond = 10 - n % 10 ∧
      (timerStep^[n] st).winner = WINNER_NA := by
  intro n
  induction n with
  | zero => intro _; simpa [h180, h10, hw]
  | succ n ih =>
    intro hn
    obtain ⟨hg, hu, hw1⟩ := ih (by omega)
    rw [Function.iterate_succ_apply']
    obtain ⟨hpg, hpu, hpw⟩ := timerStep_proj (timerStep^[n] st)
    refine ⟨?_, ?_, ?_⟩
    · rw [hpg, hu, hg]
      split_ifs with h <;> omega
    · rw [hpu, hu]
      split_ifs with h <;> omega
    · rw [hpw, hu, hg, hw1, if_neg (by omega)]

/-- C8: a round with `maxTime = 180` seconds (`gameOver` initialized to 180,
`untilSecond` to 10, no winner) that experiences only timer ticks reaches
`winner = Draw` after exactly 1800 10Hz simulation ticks, and at no earlier
tick is the winner set; at tick 1800 the remaining-time counter is 0. -/
theorem c8_game_timer (st : GameState) (h180 : st.gameOver = 180)
    (h10 : st.untilSecond = 10) (hw : st.winner = WINNER_NA) (n : Nat) (hn : n ≤ 1800) :
    ((timerStep^[n] st).winner = if n = 1800 then WINNER_DRAW else WINNER_NA) ∧
    (n = 1800 → (timerStep^[n] st).gameOver = 0) := by
  by_cases h : n = 1800
  · subst h
    obtain ⟨hg, hu, hw1⟩ := timerStep_char st h180 h10 hw 1799 (by omega)
    have hu1 : (timerStep^[1799] st).untilSecond = 1 := by rw [hu]
    have hg1 : (timerStep^[1799] st).gameOver = 1 := by rw [hg]
    rw [show (1800 : Nat) = 1799 + 1 from rfl, Function.iterate_succ_apply']
    obtain ⟨hpg, hpu, hpw⟩ := timerStep_proj (timerStep^[1799] st)
    constructor
    · rw [if_pos rfl, hpw, hu1, hg1, if_pos (by norm_num)]
    · intro _
      rw [hpg, hu1, hg1]
      norm_num
  · rw [if_neg h]
    exact ⟨(timerStep_char st h180 h10 hw n (by omega)).2.2, fun hc => absurd hc h⟩

/-- C8 witness: the initialized base state reaches a draw at tick 1800. -/
theorem c8_game_timer_witness :
    stBase.gameOver = 180 ∧ stBase.untilSecond = 10 ∧ stBase.winner = WINNER_NA ∧
    (timerStep^[1800] stBase).winner = WINNER_DRAW ∧
    (timerStep^[1800] stBase).gameOver = 0 := by
  have h := c8_game_timer stBase rfl rfl rfl 1800 (le_refl _)
  refine ⟨rfl, rfl, rfl, ?_, h.2 rfl⟩
  rw [h.1, if_pos rfl]

theorem fType_empty_tile : fType FIELD_EMPTY = FTYPE_EMPTY := by decide

theorem hef_empty_44 (part endt x y m j : Nat) (st : GameState)
    (h : st.gameFieldLow m = FIELD_EMPTY) :
    (handleExplodedField 44 part endt x y m j st).1 = true ∧
    (handleExplodedField 44 part endt x y m j st).2.gameFieldLow =
      updQuad st.gameFieldLow m ((if j = 1 then endt else part) % 256)
        (((if j = 1 then endt else part) + 1) % 256)
        (((if j = 1 then endt else part) + 0x10) % 256)
        (((if j = 1 then endt else part) + 0x11) % 256) := by
  by_cases hj : j = 1 <;>
    simp only [handleExplodedField, h, fType_empty_tile, hj, if_true, if_false,
      show ((44:Nat) &&& 128) = 0 from by decide, show ((44:Nat) &&& 64) = 0 from by decide] <;>
    norm_num [setField, setFieldFlippedX, setFieldFlippedY, setFieldAttr]

theorem hef_empty_108 (part endt x y m j : Nat) (st : GameState)
    (h : st.gameFieldLow m = FIELD_EMPTY) :
    (handleExplodedField 108 part endt x y m j st).1 = true ∧
    (handleExplodedField 108 part endt x y m j st).2.gameFieldLow =
      updQuad st.gameFieldLow m (((if j = 1 then endt else part) + 1) % 256)
        ((if j = 1 then endt else part) % 256)
        (((if j = 1 then endt else part) + 0x11) % 256)
        (((if j = 1 then endt else part) + 0x10) % 256) := by
  by_cases hj : j = 1 <;>
    simp only [handleExplodedField, h, fType_empty_tile, hj, if_true, if_false,
      show ((108:Nat) &&& 128) = 0 from by decide, show ((108:Nat) &&& 64) = 64 from by decide] <;>
    norm_num [setField, setFieldFlippedX, setFieldFlippedY, setFieldAttr]

theorem hef_empty_172 (part endt x y m j : Nat) (st : GameState)
    (h : st.gameFieldLow m = FIELD_EMPTY) :
    (handleExplodedField 172 part endt x y m j st).1 = true ∧
    (handleExplodedField 172 part endt x y m j st).2.gameFieldLow =
      updQuad st.gameFieldLow m (((if j = 1 then endt else part) + 0x10) % 256)
        (((if j = 1 then endt else part) + 0x11) % 256)
        ((if j = 1 then endt else part) % 256)
        (((if j = 1 then endt else part) + 1) % 256) := by
  by_cases hj : j = 1 <;>
    simp only [handleExplodedField, h, fType_empty_tile, hj, if_true, if_false,
      show ((172:Nat) &&& 128) = 128 from by decide] <;>
    norm_num [setField, setFieldFlippedX, setFieldFlippedY, setFieldAttr]

/-- Membership in the four tile indices of the field element at `c`. -/
def inQuad (n c : Nat) : Prop := n = c ∨ n = c + 1 ∨ n = c + 0x20 ∨ n = c + 0x21

theorem explodeWalk_succ (d : Dir) (j x y m : Nat) (st : GameState) :
    explodeWalk d (j + 1) x y m st =
      (if (handleExplodedField (dirAttr d) (dirPart d) (dirEnd d) (stepPos d x y m).1
            (stepPos d x y m).2.1 (stepPos d x y m).2.2 (j + 1) st).1 then
        explodeWalk d j (stepPos d x y m).1 (stepPos d x y m).2.1 (stepPos d x y m).2.2
          (handleExplodedField (dirAttr d) (dirPart d) (dirEnd d) (stepPos d x y m).1
            (stepPos d x y m).2.1 (stepPos d x y m).2.2 (j + 1) st).2
      else
        (handleExplodedField (dirAttr d) (dirPart d) (dirEnd d) (stepPos d x y m).1
          (stepPos d x y m).2.1 (stepPos d x y m).2.2 (j + 1) st).2) := by
  rw [explodeWalk]
  rcases h : handleExplodedField (dirAttr d) (dirPart d) (dirEnd d) (stepPos d x y m).1
      (stepPos d x y m).2.1 (stepPos d x y m).2.2 (j + 1) st with ⟨b, st1⟩
  cases b <;> simp [h]

theorem dirAttr_left : dirAttr .left = 108 := by decide

theorem dirAttr_right : dirAttr .right = 44 := by decide

theorem dirAttr_up : dirAttr .up = 172 := by decide

theorem dirAttr_down : dirAttr .down = 44 := by decide

theorem walkRight_char :
    ∀ (j x y m : Nat) (st : GameState), j ≤ 9 → m + 2 * j + 100 < 65536 →
      (∀ s, s < j → st.gameFieldLow (m + 2 * (s + 1)) = FIELD_EMPTY) →
      (∀ s, s < j →
        (explodeWalk .right j x y m st).gameFieldLow (m + 2 * (s + 1)) =
          (if s + 1 = j then FIELD_EXPL_END_X else FIELD_EXPL_PART_X) ∧
        (explodeWalk .right j x y m st).gameFieldLow (m + 2 * (s + 1) + 1) =
          (if s + 1 = j then FIELD_EXPL_END_X else FIELD_EXPL_PART_X) + 1 ∧
        (explodeWalk .right j x y m st).gameFieldLow (m + 2 * (s + 1) + 0x20) =
          (if s + 1 = j then FIELD_EXPL_END_X else FIELD_EXPL_PART_X) + 0x10 ∧
        (explodeWalk .right j x y m st).gameFieldLow (m + 2 * (s + 1) + 0x21) =
          (if s + 1 = j then FIELD_EXPL_END_X else FIELD_EXPL_PART_X) + 0x11) ∧
      (∀ n, (∀ s, s < j → ¬ inQuad n (m + 2 * (s + 1))) →
        (explodeWalk .right j x y m st).gameFieldLow n = st.gameFieldLow n) := by
  intro j
  induction j with
  | zero =>
    intro x y m st _ _ _
    exact ⟨fun s hs => absurd hs (Nat.not_lt_zero s), fun n _ => rfl⟩
  | succ j ih =>
    intro x y m st hj hbound hemp
    have hm2 : (m + 2) % 65536 = m + 2 := by omega
    have h0 : st.gameFieldLow (m + 2) = FIELD_EMPTY := by
      have := hemp 0 (Nat.succ_pos j)
      simpa using this
    have hstep := hef_empty_44 FIELD_EXPL_PART_X FIELD_EXPL_END_X ((x + 2) % 256) y (m + 2)
      (j + 1) st h0
    have hwalk : explodeWalk .right (j + 1) x y m st =
        explodeWalk .right j ((x + 2) % 256) y (m + 2)
          (handleExplodedField 44 FIELD_EXPL_PART_X FIELD_EXPL_END_X ((x + 2) % 256) y (m + 2)
            (j + 1) st).2 := by
      rw [explodeWalk_succ]
      simp only [stepPos, dirAttr_right, dirPart, dirEnd, hm2]
      rw [hstep.1]
      simp
    set st1 := (handleExplodedField 44 FIELD_EXPL_PART_X FIELD_EXPL_END_X ((x + 2) % 256) y
      (m + 2) (j + 1) st).2 with hst1
    have hemp1 : ∀ s, s < j → st1.gameFieldLow (m + 2 + 2 * (s + 1)) = FIELD_EMPTY := by
      intro s hs
      rw [hstep.2, updQuad_out _ _ _ _ _ _ _ (by omega) (by omega) (by omega) (by omega)]
      have e : m + 2 + 2 * (s + 1) = m + 2 * (s + 1 + 1) := by ring
      rw [e]
      exact hemp (s + 1) (by omega)
    obtain ⟨ihS, ihF⟩ := ih ((x + 2) % 256) y (m + 2) st1 (by omega) (by omega) hemp1
    have hnotin : ∀ d : Nat, (d = 0 ∨ d = 1 ∨ d = 32 ∨ d = 33) → ∀ s', s' < j → ¬ inQuad (m + 2 + d) (m + 2 + 2 * (s' + 1)) := by
      intro d hd s' hs'
      unfold inQuad
      omega
    constructor
    · intro s hs
      match s, hs with
      | 0, _ =>
        refine ⟨?_, ?_, ?_, ?_⟩
        · rw [show m + 2 * (0 + 1) = m + 2 from by ring, hwalk,
            ihF (m + 2) (fun s' hs' => by simpa using hnotin 0 (by omega) s' hs'),
            hstep.2, updQuad_at0]
          rcases eq_or_ne j 0 with hj0 | hj0 <;>
            simp [hj0, FIELD_EXPL_END_X, FIELD_EXPL_PART_X]
        · rw [show m + 2 * (0 + 1) + 1 = m + 2 + 1 from by ring, hwalk,
            ihF (m + 2 + 1) (hnotin 1 (by omega)), hstep.2, updQuad_at1]
          rcases eq_or_ne j 0 with hj0 | hj0 <;>
            simp [hj0, FIELD_EXPL_END_X, FIELD_EXPL_PART_X]
        · rw [show m + 2 * (0 + 1) + 0x20 = m + 2 + 0x20 from by ring, hwalk,
            ihF (m + 2 + 0x20) (hnotin 0x20 (by omega)), hstep.2, updQuad_at2]
          rcases eq_or_ne j 0 with hj0 | hj0 <;>
            simp [hj0, FIELD_EXPL_END_X, FIELD_EXPL_PART_X]
        · rw [show m + 2 * (0 + 1) + 0x21 = m + 2 + 0x21 from by ring, hwalk,
            ihF (m + 2 + 0x21) (hnotin 0x21 (by omega)), hstep.2, updQuad_at3]
          rcases eq_or_ne j 0 with hj0 | hj0 <;>
            simp [hj0, FIELD_EXPL_END_X, FIELD_EXPL_PART_X]
      | s' + 1, hs =>
        have hs1 : s' < j := by omega
        obtain ⟨g0, g1, g2, g3⟩ := ihS s' hs1
        rw [hwalk]
        refine ⟨?_, ?_, ?_, ?_⟩
        · rw [show m + 2 * (s' + 1 + 1) = m + 2 + 2 * (s' + 1) from by ring, g0]
          rcases eq_or_ne (s' + 1) j with he | he
          · rw [if_pos he, if_pos (by omega)]
          · rw [if_neg he, if_neg (by omega)]
        · rw [show m + 2 * (s' + 1 + 1) + 1 = m + 2 + 2 * (s' + 1) + 1 from by ring, g1]
          rcases eq_or_ne (s' + 1) j with he | he
          · rw [if_pos he, if_pos (by omega)]
          · rw [if_neg he, if_neg (by omega)]
        · rw [show m + 2 * (s' + 1 + 1) + 0x20 = m + 2 + 2 * (s' + 1) + 0x20 from by ring, g2]
          rcases eq_or_ne (s' + 1) j with he | he
          · rw [if_pos he, if_pos (by omega)]
          · rw [if_neg he, if_neg (by omega)]
        · rw [show m + 2 * (s' + 1 + 1) + 0x21 = m + 2 + 2 * (s' + 1) + 0x21 from by ring, g3]
          rcases eq_or_ne (s' + 1) j with he | he
          · rw [if_pos he, if_pos (by omega)]
          · rw [if_neg he, if_neg (by omega)]
    · intro n hn
      rw [hwalk]
      rw [ihF n ?frameSub]
      case frameSub =>
        intro s' hs'
        have := hn (s' + 1) (by omega)
        unfold inQuad at this ⊢
        omega
      rw [hstep.2]
      have h0' := hn 0 (by omega)
      unfold inQuad at h0'
      push_neg at h0'
      exact updQuad_out _ _ _ _ _ _ _ (by omega) (by omega) (by omega) (by omega)

theorem walkLeft_char :
    ∀ (j x y m : Nat) (st : GameState), j ≤ 9 → 2 * j ≤ m → m + 100 < 65536 →
      (∀ s, s < j → st.gameFieldLow (m - 2 * (s + 1)) = FIELD_EMPTY) →
      (∀ s, s < j →
        (explodeWalk .left j x y m st).gameFieldLow (m - 2 * (s + 1)) =
          (if s + 1 = j then FIELD_EXPL_END_X else FIELD_EXPL_PART_X) + 1 ∧
        (explodeWalk .left j x y m st).gameFieldLow (m - 2 * (s + 1) + 1) =
          (if s + 1 = j then FIELD_EXPL_END_X else FIELD_EXPL_PART_X) ∧
        (explodeWalk .left j x y m st).gameFieldLow (m - 2 * (s + 1) + 0x20) =
          (if s + 1 = j then FIELD_EXPL_END_X else FIELD_EXPL_PART_X) + 0x11 ∧
        (explodeWalk .left j x y m st).gameFieldLow (m - 2 * (s + 1) + 0x21) =
          (if s + 1 = j then FIELD_EXPL_END_X else FIELD_EXPL_PART_X) + 0x10) ∧
      (∀ n, (∀ s, s < j → ¬ inQuad n (m - 2 * (s + 1))) →
        (explodeWalk .left j x y m st).gameFieldLow n = st.gameFieldLow n) := by
  intro j
  induction j with
  | zero =>
    intro x y m st _ _ _ _
    exact ⟨fun s hs => absurd hs (Nat.not_lt_zero s), fun n _ => rfl⟩
  | succ j ih =>
    intro x y m st hj hlow hbound hemp
    have hm2 : (m + 65534) % 65536 = m - 2 := by omega
    have h0 : st.gameFieldLow (m - 2) = FIELD_EMPTY := by
      have := hemp 0 (Nat.succ_pos j)
      simpa using this
    have hstep := hef_empty_108 FIELD_EXPL_PART_X FIELD_EXPL_END_X ((x + 254) % 256) y (m - 2)
      (j + 1) st h0
    have hwalk : explodeWalk .left (j + 1) x y m st =
        explodeWalk .left j ((x + 254) % 256) y (m - 2)
          (handleExplodedField 108 FIELD_EXPL_PART_X FIELD_EXPL_END_X ((x + 254) % 256) y (m - 2)
            (j + 1) st).2 := by
      rw [explodeWalk_succ]
      simp only [stepPos, dirAttr_left, dirPart, dirEnd, hm2]
      rw [hstep.1]
      simp
    set st1 := (handleExplodedField 108 FIELD_EXPL_PART_X FIELD_EXPL_END_X ((x + 254) % 256) y
      (m - 2) (j + 1) st).2 with hst1
    have hemp1 : ∀ s, s < j → st1.gameFieldLow (m - 2 - 2 * (s + 1)) = FIELD_EMPTY := by
      intro s hs
      rw [hstep.2, updQuad_out _ _ _ _ _ _ _ (by omega) (by omega) (by omega) (by omega)]
      have e : m - 2 - 2 * (s + 1) = m - 2 * (s + 1 + 1) := by omega
      rw [e]
      exact hemp (s + 1) (by omega)
    obtain ⟨ihS, ihF⟩ := ih ((x + 254) % 256) y (m - 2) st1 (by omega) (by omega) (by omega) hemp1
    have hnotin : ∀ d : Nat, (d = 0 ∨ d = 1 ∨ d = 32 ∨ d = 33) → ∀ s', s' < j →
        ¬ inQuad (m - 2 + d) (m - 2 - 2 * (s' + 1)) := by
      intro d hd s' hs'
      unfold inQuad
      omega
    constructor
    · intro s hs
      match s, hs with
      | 0, _ =>
        refine ⟨?_, ?_, ?_, ?_⟩
        · rw [show m - 2 * (0 + 1) = m - 2 from by omega, hwalk,
            ihF (m - 2) (fun s' hs' => by simpa using hnotin 0 (by omega) s' hs'),
            hstep.2, updQuad_at0]
          rcases eq_or_ne j 0 with hj0 | hj0 <;>
            simp [hj0, FIELD_EXPL_END_X, FIELD_EXPL_PART_X]
        · rw [show m - 2 * (0 + 1) + 1 = m - 2 + 1 from by omega, hwalk,
            ihF (m - 2 + 1) (hnotin 1 (by omega)), hstep.2, updQuad_at1]
          rcases eq_or_ne j 0 with hj0 | hj0 <;>
            simp [hj0, FIELD_EXPL_END_X, FIELD_EXPL_PART_X]
        · rw [show m - 2 * (0 + 1) + 0x20 = m - 2 + 0x20 from by omega, hwalk,
            ihF (m - 2 + 0x20) (hnotin 0x20 (by omega)), hstep.2, updQuad_at2]
          rcases eq_or_ne j 0 with hj0 | hj0 <;>
            simp [hj0, FIELD_EXPL_END_X, FIELD_EXPL_PART_X]
        · rw [show m - 2 * (0 + 1) + 0x21 = m - 2 + 0x21 from by omega, hwalk,
            ihF (m - 2 + 0x21) (hnotin 0x21 (by omega)), hstep.2, updQuad_at3]
          rcases eq_or_ne j 0 with hj0 | hj0 <;>
            simp [hj0, FIELD_EXPL_END_X, FIELD_EXPL_PART_X]
      | s' + 1, hs =>
        have hs1 : s' < j := by omega
        obtain ⟨g0, g1, g2, g3⟩ := ihS s' hs1
        rw [hwalk]
        refine ⟨?_, ?_, ?_, ?_⟩
        · rw [show m - 2 * (s' + 1 + 1) = m - 2 - 2 * (s' + 1) from by omega, g0]
          rcases eq_or_ne (s' + 1) j with he | he
          · rw [if_pos he, if_pos (by omega)]
          · rw [if_neg he, if_neg (by omega)]
        · rw [show m - 2 * (s' + 1 + 1) + 1 = m - 2 - 2 * (s' + 1) + 1 from by omega, g1]
          rcases eq_or_ne (s' + 1) j with he | he
          · rw [if_pos he, if_pos (by omega)]
          · rw [if_neg he, if_neg (by omega)]
        · rw [show m - 2 * (s' + 1 + 1) + 0x20 = m - 2 - 2 * (s' + 1) + 0x20 from by omega, g2]
          rcases eq_or_ne (s' + 1) j with he | he
          · rw [if_pos he, if_pos (by omega)]
          · rw [if_neg he, if_neg (by omega)]
        · rw [show m - 2 * (s' + 1 + 1) + 0x21 = m - 2 - 2 * (s' + 1) + 0x21 from by omega, g3]
          rcases eq_or_ne (s' + 1) j with he | he
          · rw [if_pos he, if_pos (by omega)]
          · rw [if_neg he, if_neg (by omega)]
    · intro n hn
      rw [hwalk]
      rw [ihF n ?frameSubL]
      case frameSubL =>
        intro s' hs'
        have := hn (s' + 1) (by omega)
        unfold inQuad at this ⊢
        omega
      rw [hstep.2]
      have h0' := hn 0 (by omega)
      unfold inQuad at h0'
      push_neg at h0'
      exact updQuad_out _ _ _ _ _ _ _ (by omega) (by omega) (by omega) (by omega)

theorem walkUp_char :
    ∀ (j x y m : Nat) (st : GameState), j ≤ 9 → 64 * j ≤ m → m + 100 < 65536 →
      (∀ s, s < j → st.gameFieldLow (m - 64 * (s + 1)) = FIELD_EMPTY) →
      (∀ s, s < j →
        (explodeWalk .up j x y m st).gameFieldLow (m - 64 * (s + 1)) =
          (if s + 1 = j then FIELD_EXPL_END_Y else FIELD_EXPL_PART_Y) + 0x10 ∧
        (explodeWalk .up j x y m st).gameFieldLow (m - 64 * (s + 1) + 1) =
          (if s + 1 = j then FIELD_EXPL_END_Y else FIELD_EXPL_PART_Y) + 0x11 ∧
        (explodeWalk .up j x y m st).gameFieldLow (m - 64 * (s + 1) + 0x20) =
          (if s + 1 = j then FIELD_EXPL_END_Y else FIELD_EXPL_PART_Y) ∧
        (explodeWalk .up j x y m st).gameFieldLow (m - 64 * (s + 1) + 0x21) =
          (if s + 1 = j then FIELD_EXPL_END_Y else FIELD_EXPL_PART_Y) + 1) ∧
      (∀ n, (∀ s, s < j → ¬ inQuad n (m - 64 * (s + 1))) →
        (explodeWalk .up j x y m st).gameFieldLow n = st.gameFieldLow n) := by
  intro j
  induction j with
  | zero =>
    intro x y m st _ _ _ _
    exact ⟨fun s hs => absurd hs (Nat.not_lt_zero s), fun n _ => rfl⟩
  | succ j ih =>
    intro x y m st hj hlow hbound hemp
    have hm2 : (m + 65472) % 65536 = m - 64 := by omega
    have h0 : st.gameFieldLow (m - 64) = FIELD_EMPTY := by
      have := hemp 0 (Nat.succ_pos j)
      simpa using this
    have hstep := hef_empty_172 FIELD_EXPL_PART_Y FIELD_EXPL_END_Y x ((y + 254) % 256) (m - 64)
      (j + 1) st h0
    have hwalk : explodeWalk .up (j + 1) x y m st =
        explodeWalk .up j x ((y + 254) % 256) (m - 64)
          (handleExplodedField 172 FIELD_EXPL_PART_Y FIELD_EXPL_END_Y x ((y + 254) % 256) (m - 64)
            (j + 1) st).2 := by
      rw [explodeWalk_succ]
      simp only [stepPos, dirAttr_up, dirPart, dirEnd, hm2]
      rw [hstep.1]
      simp
    set st1 := (handleExplodedField 172 FIELD_EXPL_PART_Y FIELD_EXPL_END_Y x ((y + 254) % 256)
      (m - 64) (j + 1) st).2 with hst1
    have hemp1 : ∀ s, s < j → st1.gameFieldLow (m - 64 - 64 * (s + 1)) = FIELD_EMPTY := by
      intro s hs
      rw [hstep.2, updQuad_out _ _ _ _ _ _ _ (by omega) (by omega) (by omega) (by omega)]
      have e : m - 64 - 64 * (s + 1) = m - 64 * (s + 1 + 1) := by omega
      rw [e]
      exact hemp (s + 1) (by omega)
    obtain ⟨ihS, ihF⟩ := ih x ((y + 254) % 256) (m - 64) st1 (by omega) (by omega) (by omega) hemp1
    have hnotin : ∀ d : Nat, (d = 0 ∨ d = 1 ∨ d = 32 ∨ d = 33) → ∀ s', s' < j →
        ¬ inQuad (m - 64 + d) (m - 64 - 64 * (s' + 1)) := by
      intro d hd s' hs'
      unfold inQuad
      omega
    constructor
    · intro s hs
      match s, hs with
      | 0, _ =>
        refine ⟨?_, ?_, ?_, ?_⟩
        · rw [show m - 64 * (0 + 1) = m - 64 from by omega, hwalk,
            ihF (m - 64) (fun s' hs' => by simpa using hnotin 0 (by omega) s' hs'),
            hstep.2, updQuad_at0]
          rcases eq_or_ne j 0 with hj0 | hj0 <;>
            simp [hj0, FIELD_EXPL_END_Y, FIELD_EXPL_PART_Y]
        · rw [show m - 64 * (0 + 1) + 1 = m - 64 + 1 from by omega, hwalk,
            ihF (m - 64 + 1) (hnotin 1 (by omega)), hstep.2, updQuad_at1]
          rcases eq_or_ne j 0 with hj0 | hj0 <;>
            simp [hj0, FIELD_EXPL_END_Y, FIELD_EXPL_PART_Y]
        · rw [show m - 64 * (0 + 1) + 0x20 = m - 64 + 0x20 from by omega, hwalk,
            ihF (m - 64 + 0x20) (hnotin 0x20 (by omega)), hstep.2, updQuad_at2]
          rcases eq_or_ne j 0 with hj0 | hj0 <;>
            simp [hj0, FIELD_EXPL_END_Y, FIELD_EXPL_PART_Y]
        · rw [show m - 64 * (0 + 1) + 0x21 = m - 64 + 0x21 from by omega, hwalk,
            ihF (m - 64 + 0x21) (hnotin 0x21 (by omega)), hstep.2, updQuad_at3]
          rcases eq_or_ne j 0 with hj0 | hj0 <;>
            simp [hj0, FIELD_EXPL_END_Y, FIELD_EXPL_PART_Y]
      | s' + 1, hs =>
        have hs1 : s' < j := by omega
        obtain ⟨g0, g1, g2, g3⟩ := ihS s' hs1
        rw [hwalk]
        refine ⟨?_, ?_, ?_, ?_⟩
        · rw [show m - 64 * (s' + 1 + 1) = m - 64 - 64 * (s' + 1) from by omega, g0]
          rcases eq_or_ne (s' + 1) j with he | he
          · rw [if_pos he, if_pos (by omega)]
          · rw [if_neg he, if_neg (by omega)]
        · rw [show m - 64 * (s' + 1 + 1) + 1 = m - 64 - 64 * (s' + 1) + 1 from by omega, g1]
          rcases eq_or_ne (s' + 1) j with he | he
          · rw [if_pos he, if_pos (by omega)]
          · rw [if_neg he, if_neg (by omega)]
        · rw [show m - 64 * (s' + 1 + 1) + 0x20 = m - 64 - 64 * (s' + 1) + 0x20 from by omega, g2]
          rcases eq_or_ne (s' + 1) j with he | he
          · rw [if_pos he, if_pos (by omega)]
          · rw [if_neg he, if_neg (by omega)]
        · rw [show m - 64 * (s' + 1 + 1) + 0x21 = m - 64 - 64 * (s' + 1) + 0x21 from by omega, g3]
          rcases eq_or_ne (s' + 1) j with he | he
          · rw [if_pos he, if_pos (by omega)]
          · rw [if_neg he, if_neg (by omega)]
    · intro n hn
      rw [hwalk]
      rw [ihF n ?frameSubU]
      case frameSubU =>
        intro s' hs'
        have := hn (s' + 1) (by omega)
        unfold inQuad at this ⊢
        omega
      rw [hstep.2]
      have h0' := hn 0 (by omega)
      unfold inQuad at h0'
      push_neg at h0'
      exact updQuad_out _ _ _ _ _ _ _ (by omega) (by omega) (by omega) (by omega)

theorem walkDown_char :
    ∀ (j x y m : Nat) (st : GameState), j ≤ 9 → m + 64 * j + 100 < 65536 →
      (∀ s, s < j → st.gameFieldLow (m + 64 * (s + 1)) = FIELD_EMPTY) →
      (∀ s, s < j →
        (explodeWalk .down j x y m st).gameFieldLow (m + 64 * (s + 1)) =
          (if s + 1 = j then FIELD_EXPL_END_Y else FIELD_EXPL_PART_Y) ∧
        (explodeWalk .down j x y m st).gameFieldLow (m + 64 * (s + 1) + 1) =
          (if s + 1 = j then FIELD_EXPL_END_Y else FIELD_EXPL_PART_Y) + 1 ∧
        (explodeWalk .down j x y m st).gameFieldLow (m + 64 * (s + 1) + 0x20) =
          (if s + 1 = j then FIELD_EXPL_END_Y else FIELD_EXPL_PART_Y) + 0x10 ∧
        (explodeWalk .down j x y m st).gameFieldLow (m + 64 * (s + 1) + 0x21) =
          (if s + 1 = j then FIELD_EXPL_END_Y else FIELD_EXPL_PART_Y) + 0x11) ∧
      (∀ n, (∀ s, s < j → ¬ inQuad n (m + 64 * (s + 1))) →
        (explodeWalk .down j x y m st).gameFieldLow n = st.gameFieldLow n) := by
  intro j
  induction j with
  | zero =>
    intro x y m st _ _ _
    exact ⟨fun s hs => absurd hs (Nat.not_lt_zero s), fun n _ => rfl⟩
  | succ j ih =>
    intro x y m st hj hbound hemp
    have hm2 : (m + 64) % 65536 = m + 64 := by omega
    have h0 : st.gameFieldLow (m + 64) = FIELD_EMPTY := by
      have := hemp 0 (Nat.succ_pos j)
      simpa using this
    have hstep := hef_empty_44 FIELD_EXPL_PART_Y FIELD_EXPL_END_Y x ((y + 2) % 256) (m + 64)
      (j + 1) st h0
    have hwalk : explodeWalk .down (j + 1) x y m st =
        explodeWalk .down j x ((y + 2) % 256) (m + 64)
          (handleExplodedField 44 FIELD_EXPL_PART_Y FIELD_EXPL_END_Y x ((y + 2) % 256) (m + 64)
            (j + 1) st).2 := by
      rw [explodeWalk_succ]
      simp only [stepPos, dirAttr_down, dirPart, dirEnd, hm2]
      rw [hstep.1]
      simp
    set st1 := (handleExplodedField 44 FIELD_EXPL_PART_Y FIELD_EXPL_END_Y x ((y + 2) % 256)
      (m + 64) (j + 1) st).2 with hst1
    have hemp1 : ∀ s, s < j → st1.gameFieldLow (m + 64 + 64 * (s + 1)) = FIELD_EMPTY := by
      intro s hs
      rw [hstep.2, updQuad_out _ _ _ _ _ _ _ (by omega) (by omega) (by omega) (by omega)]
      have e : m + 64 + 64 * (s + 1) = m + 64 * (s + 1 + 1) := by ring
      rw [e]
      exact hemp (s + 1) (by omega)
    obtain ⟨ihS, ihF⟩ := ih x ((y + 2) % 256) (m + 64) st1 (by omega) (by omega) hemp1
    have hnotin : ∀ d : Nat, (d = 0 ∨ d = 1 ∨ d = 32 ∨ d = 33) → ∀ s', s' < j →
        ¬ inQuad (m + 64 + d) (m + 64 + 64 * (s' + 1)) := by
      intro d hd s' hs'
      unfold inQuad
      omega
    constructor
    · intro s hs
      match s, hs with
      | 0, _ =>
        refine ⟨?_, ?_, ?_, ?_⟩
        · rw [show m + 64 * (0 + 1) = m + 64 from by ring, hwalk,
            ihF (m + 64) (fun s' hs' => by simpa using hnotin 0 (by omega) s' hs'),
            hstep.2, updQuad_at0]
          rcases eq_or_ne j 0 with hj0 | hj0 <;>
            simp [hj0, FIELD_EXPL_END_Y, FIELD_EXPL_PART_Y]
        · rw [show m + 64 * (0 + 1) + 1 = m + 64 + 1 from by ring, hwalk,
            ihF (m + 64 + 1) (hnotin 1 (by omega)), hstep.2, updQuad_at1]
          rcases eq_or_ne j 0 with hj0 | hj0 <;>
            simp [hj0, FIELD_EXPL_END_Y, FIELD_EXPL_PART_Y]
        · rw [show m + 64 * (0 + 1) + 0x20 = m + 64 + 0x20 from by ring, hwalk,
            ihF (m + 64 + 0x20) (hnotin 0x20 (by omega)), hstep.2, updQuad_at2]
          rcases eq_or_ne j 0 with hj0 | hj0 <;>
            simp [hj0, FIELD_EXPL_END_Y, FIELD_EXPL_PART_Y]
        · rw [show m + 64 * (0 + 1) + 0x21 = m + 64 + 0x21 from by ring, hwalk,
            ihF (m + 64 + 0x21) (hnotin 0x21 (by omega)), hstep.2, updQuad_at3]
          rcases eq_or_ne j 0 with hj0 | hj0 <;>
            simp [hj0, FIELD_EXPL_END_Y, FIELD_EXPL_PART_Y]
      | s' + 1, hs =>
        have hs1 : s' < j := by omega
        obtain ⟨g0, g1, g2, g3⟩ := ihS s' hs1
        rw [hwalk]
        refine ⟨?_, ?_, ?_, ?_⟩
        · rw [show m + 64 * (s' + 1 + 1) = m + 64 + 64 * (s' + 1) from by ring, g0]
          rcases eq_or_ne (s' + 1) j with he | he
          · rw [if_pos he, if_pos (by omega)]
          · rw [if_neg he, if_neg (by omega)]
        · rw [show m + 64 * (s' + 1 + 1) + 1 = m + 64 + 64 * (s' + 1) + 1 from by ring, g1]
          rcases eq_or_ne (s' + 1) j with he | he
          · rw [if_pos he, if_pos (by omega)]
          · rw [if_neg he, if_neg (by omega)]
        · rw [show m + 64 * (s' + 1 + 1) + 0x20 = m + 64 + 64 * (s' + 1) + 0x20 from by ring, g2]
          rcases eq_or_ne (s' + 1) j with he | he
          · rw [if_pos he, if_pos (by omega)]
          · rw [if_neg he, if_neg (by omega)]
        · rw [show m + 64 * (s' + 1 + 1) + 0x21 = m + 64 + 64 * (s' + 1) + 0x21 from by ring, g3]
          rcases eq_or_ne (s' + 1) j with he | he
          · rw [if_pos he, if_pos (by omega)]
          · rw [if_neg he, if_neg (by omega)]
    · intro n hn
      rw [hwalk]
      rw [ihF n ?frameSubD]
      case frameSubD =>
        intro s' hs'
        have := hn (s' + 1) (by omega)
        unfold inQuad at this ⊢
        omega
      rw [hstep.2]
      have h0' := hn 0 (by omega)
      unfold inQuad at h0'
      push_neg at h0'
      exact updQuad_out _ _ _ _ _ _ _ (by omega) (by omega) (by omega) (by omega)

set_option maxHeartbeats 1600000 in
/-- C6: a detonation of range `R` whose surroundings up to distance `R` in
all four directions are Empty produces the "+"-shaped flame pattern. -/
theorem c6_plus_flame_pattern (R : Nat) (owner : Bool) (idx : Nat) (st : GameState)
    (x y : Nat)
    (hx : ((playerOf st owner).bombList.getD idx default).x = x)
    (hy : ((playerOf st owner).bombList.getD idx default).y = y)
    (hx1 : 2 + 2 * R ≤ x) (hx2 : x + 2 * R ≤ 26)
    (hy1 : 4 + 2 * R ≤ y) (hy2 : y + 2 * R ≤ 24)
    (hEr : ∀ s, 1 ≤ s → s ≤ R →
      st.gameFieldLow (TILE_OFFSET_1 x y + 2 * s) = FIELD_EMPTY)
    (hEl : ∀ s, 1 ≤ s → s ≤ R →
      st.gameFieldLow (TILE_OFFSET_1 x y - 2 * s) = FIELD_EMPTY)
    (hEd : ∀ s, 1 ≤ s → s ≤ R →
      st.gameFieldLow (TILE_OFFSET_1 x y + 64 * s) = FIELD_EMPTY)
    (hEu : ∀ s, 1 ≤ s → s ≤ R →
      st.gameFieldLow (TILE_OFFSET_1 x y - 64 * s) = FIELD_EMPTY) :
    (handleExplosion R owner idx st).gameFieldLow (TILE_OFFSET_1 x y) = FIELD_EXPL_MID ∧
    fType FIELD_EXPL_MID = FTYPE_FLAME ∧
    (∀ s, 1 ≤ s → s ≤ R →
      (handleExplosion R owner idx st).gameFieldLow (TILE_OFFSET_1 x y + 2 * s) =
        (if s = R then FIELD_EXPL_END_X else FIELD_EXPL_PART_X) ∧
      fType ((handleExplosion R owner idx st).gameFieldLow (TILE_OFFSET_1 x y + 2 * s)) =
        FTYPE_FLAME) ∧
    (∀ s, 1 ≤ s → s ≤ R →
      (handleExplosion R owner idx st).gameFieldLow (TILE_OFFSET_1 x y - 2 * s) =
        (if s = R then FIELD_EXPL_END_X else FIELD_EXPL_PART_X) + 1 ∧
      fType ((handleExplosion R owner idx st).gameFieldLow (TILE_OFFSET_1 x y - 2 * s)) =
        FTYPE_FLAME) ∧
    (∀ s, 1 ≤ s → s ≤ R →
      (handleExplosion R owner idx st).gameFieldLow (TILE_OFFSET_1 x y + 64 * s) =
        (if s = R then FIELD_EXPL_END_Y else FIELD_EXPL_PART_Y) ∧
      fType ((handleExplosion R owner idx st).gameFieldLow (TILE_OFFSET_1 x y + 64 * s)) =
        FTYPE_FLAME) ∧
    (∀ s, 1 ≤ s → s ≤ R →
      (handleExplosion R owner idx st).gameFieldLow (TILE_OFFSET_1 x y - 64 * s) =
        (if s = R then FIELD_EXPL_END_Y else FIELD_EXPL_PART_Y) + 0x10 ∧
      fType ((handleExplosion R owner idx st).gameFieldLow (TILE_OFFSET_1 x y - 64 * s)) =
        FTYPE_FLAME) ∧
    ((handleExplosion R owner idx st).gameFieldLow (TILE_OFFSET_1 x y + 2 * (R + 1)) =
      st.gameFieldLow (TILE_OFFSET_1 x y + 2 * (R + 1)) ∧
     (handleExplosion R owner idx st).gameFieldLow (TILE_OFFSET_1 x y - 2 * (R + 1)) =
      st.gameFieldLow (TILE_OFFSET_1 x y - 2 * (R + 1)) ∧
     (handleExplosion R owner idx st).gameFieldLow (TILE_OFFSET_1 x y + 64 * (R + 1)) =
      st.gameFieldLow (TILE_OFFSET_1 x y + 64 * (R + 1)) ∧
     (handleExplosion R owner idx st).gameFieldLow (TILE_OFFSET_1 x y - 64 * (R + 1)) =
      st.gameFieldLow (TILE_OFFSET_1 x y - 64 * (R + 1))) := by
  have hR : R ≤ 5 := by omega
  have hKd : TILE_OFFSET_1 x y = y * 32 + x + 1 := rfl
  have hexp : handleExplosion R owner idx st =
      explodeWalk .down R x y (TILE_OFFSET_1 x y)
        (explodeWalk .up R x y (TILE_OFFSET_1 x y)
          (explodeWalk .right R x y (TILE_OFFSET_1 x y)
            (explodeWalk .left R x y (TILE_OFFSET_1 x y)
              (setField (TILE_OFFSET_1 x y) FIELD_EXPL_MID
                { st with
                  aniField := upd st.aniField (TILE_OFFSET_1 x y) 4
                  ttlField := upd st.ttlField (TILE_OFFSET_1 x y) EXPLOSION_ANIMATION })))) := by
    simp only [handleExplosion, hx, hy]
  rw [hexp, hKd] at *
  set K := y * 32 + x + 1 with hKdef
  have hKx : 2 * (R + 1) ≤ K := by omega
  have hKu : 64 * (R + 1) ≤ K := by omega
  have hKb : K + 64 * R + 100 < 65536 := by omega
  set st2 := setField K FIELD_EXPL_MID
    { st with
      aniField := upd st.aniField K 4
      ttlField := upd st.ttlField K EXPLOSION_ANIMATION } with hst2def
  have h2low : st2.gameFieldLow = updQuad st.gameFieldLow K 32 33 48 49 := by
    simp [hst2def, setField, FIELD_EXPL_MID]
  -- left walk
  obtain ⟨ls, lf⟩ := walkLeft_char R x y K st2 (by omega) (by omega) (by omega)
    (by
      intro s hs
      rw [h2low, updQuad_out _ _ _ _ _ _ _ (by omega) (by omega) (by omega) (by omega)]
      have e : K - 2 * (s + 1) = K - 2 * (s + 1) := rfl
      exact hEl (s + 1) (by omega) (by omega))
  set stA := explodeWalk .left R x y K st2 with hstAdef
  -- right walk
  obtain ⟨rs, rf⟩ := walkRight_char R x y K stA (by omega) (by omega)
    (by
      intro s hs
      rw [lf (K + 2 * (s + 1)) (by intro s' hs'; unfold inQuad; omega),
        h2low, updQuad_out _ _ _ _ _ _ _ (by omega) (by omega) (by omega) (by omega)]
      exact hEr (s + 1) (by omega) (by omega))
  set stB := explodeWalk .right R x y K stA with hstBdef
  -- up walk
  obtain ⟨us, uf⟩ := walkUp_char R x y K stB (by omega) (by omega) (by omega)
    (by
      intro s hs
      rw [rf (K - 64 * (s + 1)) (by intro s' hs'; unfold inQuad; omega),
        lf (K - 64 * (s + 1)) (by intro s' hs'; unfold inQuad; omega),
        h2low, updQuad_out _ _ _ _ _ _ _ (by omega) (by omega) (by omega) (by omega)]
      exact hEu (s + 1) (by omega) (by omega))
  set stC := explodeWalk .up R x y K stB with hstCdef
  -- down walk
  obtain ⟨ds, df⟩ := walkDown_char R x y K stC (by omega) (by omega)
    (by
      intro s hs
      rw [uf (K + 64 * (s + 1)) (by intro s' hs'; unfold inQuad; omega),
        rf (K + 64 * (s + 1)) (by intro s' hs'; unfold inQuad; omega),
        lf (K + 64 * (s + 1)) (by intro s' hs'; unfold inQuad; omega),
        h2low, updQuad_out _ _ _ _ _ _ _ (by omega) (by omega) (by omega) (by omega)]
      exact hEd (s + 1) (by omega) (by omega))
  refine ⟨?_, by decide, ?_, ?_, ?_, ?_, ?_, ?_, ?_, ?_⟩
  · -- centre tile
    rw [df K (by intro s' hs'; unfold inQuad; omega),
      uf K (by intro s' hs'; unfold inQuad; omega),
      rf K (by intro s' hs'; unfold inQuad; omega),
      lf K (by intro s' hs'; unfold inQuad; omega),
      h2low, updQuad_at0]
    rfl
  · -- rightward flames
    intro s hs1 hsR
    obtain ⟨s', rfl⟩ : ∃ s', s = s' + 1 := ⟨s - 1, by omega⟩
    have hst := (rs s' (by omega)).1
    have htr : (explodeWalk .down R x y K stC).gameFieldLow (K + 2 * (s' + 1)) =
        stB.gameFieldLow (K + 2 * (s' + 1)) := by
      rw [df (K + 2 * (s' + 1)) (by intro t ht; unfold inQuad; omega),
        uf (K + 2 * (s' + 1)) (by intro t ht; unfold inQuad; omega)]
    rw [htr, hst]
    constructor
    · rfl
    · rcases eq_or_ne (s' + 1) R with he | he <;> simp [he] <;> decide
  · -- leftward flames
    intro s hs1 hsR
    obtain ⟨s', rfl⟩ : ∃ s', s = s' + 1 := ⟨s - 1, by omega⟩
    have hst := (ls s' (by omega)).1
    have htr : (explodeWalk .down R x y K stC).gameFieldLow (K - 2 * (s' + 1)) =
        stA.gameFieldLow (K - 2 * (s' + 1)) := by
      rw [df (K - 2 * (s' + 1)) (by intro t ht; unfold inQuad; omega),
        uf (K - 2 * (s' + 1)) (by intro t ht; unfold inQuad; omega),
        rf (K - 2 * (s' + 1)) (by intro t ht; unfold inQuad; omega)]
    rw [htr, hst]
    constructor
    · rfl
    · rcases eq_or_ne (s' + 1) R with he | he <;> simp [he] <;> decide
  · -- downward flames
    intro s hs1 hsR
    obtain ⟨s', rfl⟩ : ∃ s', s = s' + 1 := ⟨s - 1, by omega⟩
    have hst := (ds s' (by omega)).1
    rw [hst]
    constructor
    · rfl
    · rcases eq_or_ne (s' + 1) R with he | he <;> simp [he] <;> decide
  · -- upward flames
    intro s hs1 hsR
    obtain ⟨s', rfl⟩ : ∃ s', s = s' + 1 := ⟨s - 1, by omega⟩
    have hst := (us s' (by omega)).1
    have htr : (explodeWalk .down R x y K stC).gameFieldLow (K - 64 * (s' + 1)) =
        stC.gameFieldLow (K - 64 * (s' + 1)) := by
      rw [df (K - 64 * (s' + 1)) (by intro t ht; unfold inQuad; omega)]
    rw [htr, hst]
    constructor
    · rfl
    · rcases eq_or_ne (s' + 1) R with he | he <;> simp [he] <;> decide
  · -- right beyond
    rw [df (K + 2 * (R + 1)) (by intro t ht; unfold inQuad; omega),
      uf (K + 2 * (R + 1)) (by intro t ht; unfold inQuad; omega),
      rf (K + 2 * (R + 1)) (by intro t ht; unfold inQuad; omega),
      lf (K + 2 * (R + 1)) (by intro t ht; unfold inQuad; omega),
      h2low, updQuad_out _ _ _ _ _ _ _ (by omega) (by omega) (by omega) (by omega)]
  · -- left beyond
    rw [df (K - 2 * (R + 1)) (by intro t ht; unfold inQuad; omega),
      uf (K - 2 * (R + 1)) (by intro t ht; unfold inQuad; omega),
      rf (K - 2 * (R + 1)) (by intro t ht; unfold inQuad; omega),
      lf (K - 2 * (R + 1)) (by intro t ht; unfold inQuad; omega),
      h2low, updQuad_out _ _ _ _ _ _ _ (by omega) (by omega) (by omega) (by omega)]
  · -- down beyond
    rw [df (K + 64 * (R + 1)) (by intro t ht; unfold inQuad; omega),
      uf (K + 64 * (R + 1)) (by intro t ht; unfold inQuad; omega),
      rf (K + 64 * (R + 1)) (by intro t ht; unfold inQuad; omega),
      lf (K + 64 * (R + 1)) (by intro t ht; unfold inQuad; omega),
      h2low, updQuad_out _ _ _ _ _ _ _ (by omega) (by omega) (by omega) (by omega)]
  · -- up beyond
    rw [df (K - 64 * (R + 1)) (by intro t ht; unfold inQuad; omega),
      uf (K - 64 * (R + 1)) (by intro t ht; unfold inQuad; omega),
      rf (K - 64 * (R + 1)) (by intro t ht; unfold inQuad; omega),
      lf (K - 64 * (R + 1)) (by intro t ht; unfold inQuad; omega),
      h2low, updQuad_out _ _ _ _ _ _ _ (by omega) (by omega) (by omega) (by omega)]

/-- Player 1 bomb at element (4,6) on the all-empty base grid, range 1. -/
def stC6 : GameState :=
  { stBase with
    p1 := { pBase with
      bombList := (List.replicate MAX_BOMBS (default : BombField)).set 0 ⟨4, 6, 1, 0, 2⟩ } }

/-- C6 witness: the range-1 detonation on an empty field produces the
"+"-shaped pattern with end caps in all four directions, and the cell two
steps away stays untouched. -/
theorem c6_plus_flame_pattern_witness :
    (handleExplosion 1 false 0 stC6).gameFieldLow (TILE_OFFSET_1 4 6) = FIELD_EXPL_MID ∧
    (handleExplosion 1 false 0 stC6).gameFieldLow (TILE_OFFSET_1 4 6 + 2) = FIELD_EXPL_END_X ∧
    (handleExplosion 1 false 0 stC6).gameFieldLow (TILE_OFFSET_1 4 6 - 2) =
      FIELD_EXPL_END_X + 1 ∧
    (handleExplosion 1 false 0 stC6).gameFieldLow (TILE_OFFSET_1 4 6 + 64) = FIELD_EXPL_END_Y ∧
    (handleExplosion 1 false 0 stC6).gameFieldLow (TILE_OFFSET_1 4 6 - 64) =
      FIELD_EXPL_END_Y + 0x10 ∧
    (handleExplosion 1 false 0 stC6).gameFieldLow (TILE_OFFSET_1 4 6 + 4) =
      stC6.gameFieldLow (TILE_OFFSET_1 4 6 + 4) := by
  have h := c6_plus_flame_pattern 1 false 0 stC6 4 6 (by decide) (by decide) (by decide)
    (by decide) (by decide) (by decide) (fun _ _ _ => rfl) (fun _ _ _ => rfl)
    (fun _ _ _ => rfl) (fun _ _ _ => rfl)
  refine ⟨h.1, ?_, ?_, ?_, ?_, ?_⟩
  · have := (h.2.2.1 1 (le_refl 1) (le_refl 1)).1
    simpa using this
  · have := (h.2.2.2.1 1 (le_refl 1) (le_refl 1)).1
    simpa using this
  · have := (h.2.2.2.2.1 1 (le_refl 1) (le_refl 1)).1
    simpa using this
  · have := (h.2.2.2.2.2.1 1 (le_refl 1) (le_refl 1)).1
    simpa using this
  · have := h.2.2.2.2.2.2.1
    simpa using this

/-! ## Bomb bookkeeping invariants (C4 / C7) -/

/-- Number of live bombs (`ttl > 0`) in a bomb list. -/
def liveCount (l : List BombField) : Nat := l.countP (fun bf => bf.ttl != 0)

/-- The ttl of the bomb slot referenced by (owner, index). -/
def slotTtl (st : GameState) (r : Bool × Nat) : Nat :=
  ((playerOf st r.1).bombList.getD r.2 default).ttl

/-- The (owner, index) references recorded in the chain list. -/
def chainRefs (st : GameState) : List (Bool × Nat) :=
  st.bombChain.map (fun tb => (tb.owner, tb.idx))

/-- Mark invariant: every bomb recorded in the chain list or in the
detonation log has ttl 0, and no bomb is recorded twice across both. -/
def MInv (st : GameState) : Prop :=
  (∀ r ∈ chainRefs st ++ st.dets, slotTtl st r = 0) ∧ (chainRefs st ++ st.dets).Nodup

/-- Chain entries plus live bombs; constant under explosion handling. -/
def chainMeasure (st : GameState) : Nat :=
  st.bombChain.length + liveCount st.p1.bombList + liveCount st.p2.bombList

/-- Available plus live bombs of one player. -/
def bombsPlus (p : Player) : Nat := p.bombs + liveCount p.bombList

/-- What a single explosion-resolution step preserves. -/
def ExplPres (st st' : GameState) : Prop :=
  bombsPlus st'.p1 = bombsPlus st.p1 ∧
  bombsPlus st'.p2 = bombsPlus st.p2 ∧
  st'.p1.maxBombs = st.p1.maxBombs ∧
  st'.p2.maxBombs = st.p2.maxBombs ∧
  st'.p1.bombList.length = st.p1.bombList.length ∧
  st'.p2.bombList.length = st.p2.bombList.length ∧
  st'.dets = st.dets ∧
  chainMeasure st' = chainMeasure st ∧
  (∀ r : Bool × Nat, slotTtl st r = 0 → slotTtl st' r = 0) ∧
  (MInv st → MInv st')

theorem ExplPres_refl (st : GameState) : ExplPres st st :=
  ⟨rfl, rfl, rfl, rfl, rfl, rfl, rfl, rfl, fun _ h => h, id⟩

theorem ExplPres_trans {s1 s2 s3 : GameState} (h12 : ExplPres s1 s2) (h23 : ExplPres s2 s3) :
    ExplPres s1 s3 := by
  obtain ⟨a1, a2, a3, a4, a5, a6, a7, a8, a9, a10⟩ := h12
  obtain ⟨b1, b2, b3, b4, b5, b6, b7, b8, b9, b10⟩ := h23
  exact ⟨b1.trans a1, b2.trans a2, b3.trans a3, b4.trans a4, b5.trans a5, b6.trans a6,
    b7.trans a7, b8.trans a8, fun r h => b9 r (a9 r h), fun h => b10 (a10 h)⟩

theorem getD_set_self {α : Type} [Inhabited α] (l : List α) (i : Nat) (b : α)
    (h : i < l.length) : (l.set i b).getD i default = b := by
  rw [List.getD_eq_getElem?_getD, List.getElem?_set_self h]
  rfl

theorem getD_set_ne {α : Type} [Inhabited α] (l : List α) (i j : Nat) (b : α) (h : i ≠ j) :
    (l.set i b).getD j default = l.getD j default := by
  rw [List.getD_eq_getElem?_getD, List.getElem?_set_ne h, ← List.getD_eq_getElem?_getD]

theorem liveCount_set_kill (l : List BombField) (i : Nat) (bf : BombField)
    (h : i < l.length) (hlive : (l.getD i default).ttl ≠ 0) (hdead : bf.ttl = 0) :
    liveCount (l.set i bf) + 1 = liveCount l ∧ 1 ≤ liveCount l := by
  have hget : l[i] = l.getD i default := by
    rw [List.getD_eq_getElem?_getD, List.getElem?_eq_getElem h]
    rfl
  have hc := List.countP_set (fun bf => bf.ttl != 0) l i bf h
  rw [hget] at hc
  have hp1 : ((l.getD i default).ttl != 0) = true := by simpa using hlive
  have hp2 : (bf.ttl != 0) = false := by simpa using hdead
  have hpos : 0 < List.countP (fun bf => bf.ttl != 0) l := by
    rw [List.countP_pos]
    exact ⟨l.getD i default, by rw [← hget]; exact List.getElem_mem h, hp1⟩
  rw [hp1, hp2] at hc
  simp at hc
  unfold liveCount
  rw [hc]
  omega

theorem liveCount_set_keep (l : List BombField) (i : Nat) (bf : BombField)
    (h : i < l.length) (hsame : (bf.ttl != 0) = ((l.getD i default).ttl != 0)) :
    liveCount (l.set i bf) = liveCount l := by
  have hget : l[i] = l.getD i default := by
    rw [List.getD_eq_getElem?_getD, List.getElem?_eq_getElem h]
    rfl
  have hc := List.countP_set (fun bf => bf.ttl != 0) l i bf h
  rw [hget, hsame] at hc
  unfold liveCount
  rcases Bool.eq_false_or_eq_true ((l.getD i default).ttl != 0) with hb | hb
  · have hpos : 0 < List.countP (fun bf => bf.ttl != 0) l := by
      rw [List.countP_pos]
      exact ⟨l.getD i default, by rw [← hget]; exact List.getElem_mem h, hb⟩
    rw [hb] at hc
    simp at hc
    rw [hc]
    omega
  · rw [hb] at hc
    simp at hc
    rw [hc]

theorem liveCount_set_revive (l : List BombField) (i : Nat) (bf : BombField)
    (h : i < l.length) (hdead : (l.getD i default).ttl = 0) (hlive : bf.ttl ≠ 0) :
    liveCount (l.set i bf) = liveCount l + 1 := by
  have hget : l[i] = l.getD i default := by
    rw [List.getD_eq_getElem?_getD, List.getElem?_eq_getElem h]
    rfl
  have hc := List.countP_set (fun bf => bf.ttl != 0) l i bf h
  rw [hget] at hc
  have hp1 : ((l.getD i default).ttl != 0) = false := by simpa using hdead
  have hp2 : (bf.ttl != 0) = true := by simpa using hlive
  rw [hp1, hp2] at hc
  simp at hc
  unfold liveCount
  rw [hc]

@[simp] theorem playerOf_false (st : GameState) : playerOf st false = st.p1 := rfl

@[simp] theorem playerOf_true (st : GameState) : playerOf st true = st.p2 := rfl

theorem slot_mono_killP1 (st : GameState) (j2 nb : Nat) (ch : List TriggeredBomb)
    (hlen : j2 < st.p1.bombList.length) :
    ∀ r : Bool × Nat, slotTtl st r = 0 →
      slotTtl { st with
        p1 := { st.p1 with
          bombs := nb
          bombList :=
            st.p1.bombList.set j2 { st.p1.bombList.getD j2 default with ttl := 0 } }
        bombChain := ch } r = 0 := by
  rintro ⟨o, i⟩ h
  cases o
  · simp only [slotTtl, playerOf_false] at h ⊢
    rcases eq_or_ne j2 i with he | he
    · subst he
      rw [getD_set_self _ _ _ hlen]
    · rw [getD_set_ne _ _ _ _ he]
      exact h
  · simp only [slotTtl, playerOf_true] at h ⊢
    exact h

theorem slot_mono_killP2 (st : GameState) (j2 nb : Nat) (ch : List TriggeredBomb)
    (hlen : j2 < st.p2.bombList.length) :
    ∀ r : Bool × Nat, slotTtl st r = 0 →
      slotTtl { st with
        p2 := { st.p2 with
          bombs := nb
          bombList :=
            st.p2.bombList.set j2 { st.p2.bombList.getD j2 default with ttl := 0 } }
        bombChain := ch } r = 0 := by
  rintro ⟨o, i⟩ h
  cases o
  · simp only [slotTtl, playerOf_false] at h ⊢
    exact h
  · simp only [slotTtl, playerOf_true] at h ⊢
    rcases eq_or_ne j2 i with he | he
    · subst he
      rw [getD_set_self _ _ _ hlen]
    · rw [getD_set_ne _ _ _ _ he]
      exact h

theorem hef_pres (attr part endt x y m j : Nat) (st : GameState) :
    ExplPres st (handleExplodedField attr part endt x y m j st).2 := by
  by_cases h1 : fType (st.gameFieldLow m) = FTYPE_EMPTY
  · simp only [handleExplodedField, h1, if_true, if_pos]
    split_ifs <;> exact ⟨rfl, rfl, rfl, rfl, rfl, rfl, rfl, rfl, fun _ h => h, id⟩
  by_cases h2 : fType (st.gameFieldLow m) = FTYPE_FLAME
  · simp only [handleExplodedField, h1, h2, if_false, if_true, if_pos, if_neg]
    exact ⟨rfl, rfl, rfl, rfl, rfl, rfl, rfl, rfl, fun _ h => h, id⟩
  by_cases h3 : fType (st.gameFieldLow m) = FTYPE_PU_BOMB ∨
      fType (st.gameFieldLow m) = FTYPE_PU_RANGE ∨ fType (st.gameFieldLow m) = FTYPE_PU_SPEED
  · simp only [handleExplodedField, h1, h2, h3, if_false, if_true, if_pos, if_neg]
    exact ⟨rfl, rfl, rfl, rfl, rfl, rfl, rfl, rfl, fun _ h => h, id⟩
  by_cases h4 : fType (st.gameFieldLow m) = FTYPE_SOLID
  · simp only [handleExplodedField, h1, h2, h3, h4, if_false, if_true, if_pos, if_neg]
    exact ExplPres_refl st
  by_cases h5 : fType (st.gameFieldLow m) = FTYPE_BOMB_P1
  · rcases hf : st.p1.bombList.findIdx? (fun bf => bf.ttl != 0 && bf.x == x && bf.y == y) with
      _ | j2
    · simp only [handleExplodedField, h1, h2, h3, h4, hf, if_false, if_neg]
      simp only [h5, eq_self_iff_true, if_true]
      exact ExplPres_refl st
    · obtain ⟨hlen, hp⟩ := findIdx?_some _ _ _ hf
      simp only [Bool.and_eq_true, bne_iff_ne, ne_eq, beq_iff_eq] at hp
      have httl : (st.p1.bombList.getD j2 default).ttl ≠ 0 := hp.1.1
      obtain ⟨hkill, hone⟩ := liveCount_set_kill st.p1.bombList j2
        ⟨(st.p1.bombList.getD j2 default).x, (st.p1.bombList.getD j2 default).y, 0,
          (st.p1.bombList.getD j2 default).curFrame,
          (st.p1.bombList.getD j2 default).ttlFrame⟩ hlen httl rfl
      have hmono := slot_mono_killP1 st j2 (st.p1.bombs + 1)
        (st.bombChain ++ [{ range := st.p1.range, owner := false, idx := j2 }]) hlen
      simp only [handleExplodedField, h1, h2, h3, h4, hf, if_false, if_neg]
      simp only [h5, eq_self_iff_true, if_true]
      refine ⟨?_, rfl, rfl, rfl, ?_, rfl, rfl, ?_, hmono, ?_⟩
      · unfold bombsPlus
        simp only []
        omega
      · simp
      · unfold chainMeasure
        simp only [List.length_append, List.length_cons, List.length_nil]
        omega
      · rintro ⟨hall, hnd⟩
        have hfresh : ((false, j2) : Bool × Nat) ∉ chainRefs st ++ st.dets := by
          intro hmem
          exact httl (hall _ hmem)
        constructor
        · intro r hr
          rw [chainRefs, List.map_append] at hr
          simp only [List.map_cons, List.map_nil] at hr
          rw [List.append_assoc] at hr
          rcases List.mem_append.mp hr with hA | hB
          · exact hmono r (hall r (List.mem_append.mpr (Or.inl hA)))
          · rcases List.mem_append.mp hB with hx | hd
            · obtain rfl : r = (false, j2) := by simpa using hx
              simp only [slotTtl, playerOf_false]
              rw [getD_set_self _ _ _ hlen]
            · exact hmono r (hall r (List.mem_append.mpr (Or.inr hd)))
        · rw [chainRefs, List.map_append]
          simp only [List.map_cons, List.map_nil]
          rw [List.append_assoc]
          have hmid : (chainRefs st ++ ((false, j2) :: st.dets)).Nodup := by
            rw [List.nodup_middle]
            exact List.nodup_cons.mpr ⟨hfresh, hnd⟩
          simpa using hmid
  by_cases h6 : fType (st.gameFieldLow m) = FTYPE_BOMB_P2
  · rcases hf : st.p2.bombList.findIdx? (fun bf => bf.ttl != 0 && bf.x == x && bf.y == y) with
      _ | j2
    · simp only [handleExplodedField, h1, h2, h3, h4, h5, hf, if_false, if_neg]
      simp only [h6, eq_self_iff_true, if_true]
      exact ExplPres_refl st
    · obtain ⟨hlen, hp⟩ := findIdx?_some _ _ _ hf
      simp only [Bool.and_eq_true, bne_iff_ne, ne_eq, beq_iff_eq] at hp
      have httl : (st.p2.bombList.getD j2 default).ttl ≠ 0 := hp.1.1
      obtain ⟨hkill, hone⟩ := liveCount_set_kill st.p2.bombList j2
        ⟨(st.p2.bombList.getD j2 default).x, (st.p2.bombList.getD j2 default).y, 0,
          (st.p2.bombList.getD j2 default).curFrame,
          (st.p2.bombList.getD j2 default).ttlFrame⟩ hlen httl rfl
      have hmono := slot_mono_killP2 st j2 (st.p2.bombs + 1)
        (st.bombChain ++ [{ range := st.p2.range, owner := true, idx := j2 }]) hlen
      simp only [handleExplodedField, h1, h2, h3, h4, h5, hf, if_false, if_neg]
      simp only [h6, eq_self_iff_true, if_true]
      refine ⟨rfl, ?_, rfl, rfl, rfl, ?_, rfl, ?_, hmono, ?_⟩
      · unfold bombsPlus
        simp only []
        omega
      · simp
      · unfold chainMeasure
        simp only [List.length_append, List.length_cons, List.length_nil]
        omega
      · rintro ⟨hall, hnd⟩
        have hfresh : ((true, j2) : Bool × Nat) ∉ chainRefs st ++ st.dets := by
          intro hmem
          exact httl (hall _ hmem)
        constructor
        · intro r hr
          rw [chainRefs, List.map_append] at hr
          simp only [List.map_cons, List.map_nil] at hr
          rw [List.append_assoc] at hr
          rcases List.mem_append.mp hr with hA | hB
          · exact hmono r (hall r (List.mem_append.mpr (Or.inl hA)))
          · rcases List.mem_append.mp hB with hx | hd
            · obtain rfl : r = (true, j2) := by simpa using hx
              simp only [slotTtl, playerOf_true]
              rw [getD_set_self _ _ _ hlen]
            · exact hmono r (hall r (List.mem_append.mpr (Or.inr hd)))
        · rw [chainRefs, List.map_append]
          simp only [List.map_cons, List.map_nil]
          rw [List.append_assoc]
          have hmid : (chainRefs st ++ ((true, j2) :: st.dets)).Nodup := by
            rw [List.nodup_middle]
            exact List.nodup_cons.mpr ⟨hfresh, hnd⟩
          simpa using hmid
  by_cases h7 : fType (st.gameFieldLow m) = FTYPE_BRICKED
  · simp only [handleExplodedField, h1, h2, h3, h4, h5, h6, if_false, if_neg]
    simp only [h7, eq_self_iff_true, if_true]
    by_cases h8 : st.aniField m = 0
    · simp only [h8, eq_self_iff_true, if_true]
      exact ⟨rfl, rfl, rfl, rfl, rfl, rfl, rfl, rfl, fun _ h => h, id⟩
    · simp only [h8, if_false]
      exact ExplPres_refl st
  · simp only [handleExplodedField, h1, h2, h3, h4, h5, h6, h7, if_false, if_neg]
    exact ExplPres_refl st

theorem explodeWalk_pres (d : Dir) :
    ∀ (j x y m : Nat) (st : GameState), ExplPres st (explodeWalk d j x y m st) := by
  intro j
  induction j with
  | zero => intro x y m st; exact ExplPres_refl st
  | succ j ih =>
    intro x y m st
    rw [explodeWalk_succ]
    by_cases hb : (handleExplodedField (dirAttr d) (dirPart d) (dirEnd d) (stepPos d x y m).1
        (stepPos d x y m).2.1 (stepPos d x y m).2.2 (j + 1) st).1 = true
    · rw [if_pos hb]
      exact ExplPres_trans (hef_pres _ _ _ _ _ _ _ _) (ih _ _ _ _)
    · rw [if_neg hb]
      exact hef_pres _ _ _ _ _ _ _ _

theorem handleExplosion_pres (range : Nat) (owner : Bool) (idx : Nat) (st : GameState) :
    ExplPres st (handleExplosion range owner idx st) := by
  simp only [handleExplosion]
  refine ExplPres_trans (ExplPres_trans (ExplPres_trans (ExplPres_trans ?_
    (explodeWalk_pres _ _ _ _ _ _)) (explodeWalk_pres _ _ _ _ _ _))
    (explodeWalk_pres _ _ _ _ _ _)) (explodeWalk_pres _ _ _ _ _ _)
  exact ⟨rfl, rfl, rfl, rfl, rfl, rfl, rfl, rfl, fun _ h => h, id⟩

/-- What the per-player bomb timer scan preserves (the detonation log may
grow, live bombs may detonate). -/
def ScanPres (st st' : GameState) : Prop :=
  bombsPlus st'.p1 = bombsPlus st.p1 ∧
  bombsPlus st'.p2 = bombsPlus st.p2 ∧
  st'.p1.maxBombs = st.p1.maxBombs ∧
  st'.p2.maxBombs = st.p2.maxBombs ∧
  st'.p1.bombList.length = st.p1.bombList.length ∧
  st'.p2.bombList.length = st.p2.bombList.length ∧
  chainMeasure st' ≤ chainMeasure st ∧
  (∀ r : Bool × Nat, slotTtl st r = 0 → slotTtl st' r = 0) ∧
  (MInv st → MInv st')

theorem ScanPres_refl (st : GameState) : ScanPres st st :=
  ⟨rfl, rfl, rfl, rfl, rfl, rfl, le_refl _, fun _ h => h, id⟩

theorem ScanPres_trans {s1 s2 s3 : GameState} (h12 : ScanPres s1 s2) (h23 : ScanPres s2 s3) :
    ScanPres s1 s3 := by
  obtain ⟨a1, a2, a3, a4, a5, a6, a7, a8, a9⟩ := h12
  obtain ⟨b1, b2, b3, b4, b5, b6, b7, b8, b9⟩ := h23
  exact ⟨b1.trans a1, b2.trans a2, b3.trans a3, b4.trans a4, b5.trans a5, b6.trans a6,
    b7.trans a7, fun r h => b8 r (a8 r h), fun h => b9 (a9 h)⟩

theorem ExplPres.toScan {s1 s2 : GameState} (h : ExplPres s1 s2) : ScanPres s1 s2 := by
  obtain ⟨a1, a2, a3, a4, a5, a6, _, a8, a9, a10⟩ := h
  exact ⟨a1, a2, a3, a4, a5, a6, le_of_eq a8, a9, a10⟩

theorem getD_ttl_lt (l : List BombField) (i : Nat) (h : (l.getD i default).ttl ≠ 0) :
    i < l.length := by
  by_contra hge
  rw [List.getD_eq_getElem?_getD, List.getElem?_eq_none (by omega)] at h
  exact h rfl

@[simp] theorem setPlayer_false (p : Player) (st : GameState) :
    setPlayer false p st = { st with p1 := p } := rfl

@[simp] theorem setPlayer_true (p : Player) (st : GameState) :
    setPlayer true p st = { st with p2 := p } := rfl

theorem ttl_zero_set_live (l : List BombField) (i : Nat) (b : BombField)
    (hlive : (l.getD i default).ttl ≠ 0) :
    ∀ r, (l.getD r default).ttl = 0 → ((l.set i b).getD r default).ttl = 0 := by
  intro r h
  rcases eq_or_ne i r with he | he
  · subst he
    exact absurd h hlive
  · rw [getD_set_ne _ _ _ _ he]
    exact h

theorem ttl_zero_set_dead (l : List BombField) (i : Nat) (b : BombField) (hb : b.ttl = 0) :
    ∀ r, (l.getD r default).ttl = 0 → ((l.set i b).getD r default).ttl = 0 := by
  intro r h
  rcases eq_or_ne i r with he | he
  · subst he
    by_cases hlen : i < l.length
    · rw [getD_set_self _ _ _ hlen]
      exact hb
    · rw [List.set_eq_of_length_le (by omega)]
      exact h
  · rw [getD_set_ne _ _ _ _ he]
    exact h

theorem slot_mono_general (st st' : GameState)
    (h1 : ∀ i, (st.p1.bombList.getD i default).ttl = 0 →
      (st'.p1.bombList.getD i default).ttl = 0)
    (h2 : ∀ i, (st.p2.bombList.getD i default).ttl = 0 →
      (st'.p2.bombList.getD i default).ttl = 0) :
    ∀ r : Bool × Nat, slotTtl st r = 0 → slotTtl st' r = 0 := by
  rintro ⟨o, i⟩ h
  cases o
  · simp only [slotTtl, playerOf_false] at h ⊢
    exact h1 i h
  · simp only [slotTtl, playerOf_true] at h ⊢
    exact h2 i h

theorem nodup_concat_fresh {α : Type} (l : List α) (x : α)
    (h : l.Nodup) (hx : x ∉ l) : (l ++ [x]).Nodup := by
  rw [List.nodup_append]
  refine ⟨h, List.nodup_singleton x, ?_⟩
  intro a ha hax
  rw [List.mem_singleton] at hax
  exact hx (hax ▸ ha)

theorem ScanPres_slotKeep (st st' : GameState) (o : Bool) (i : Nat) (b : BombField)
    (hlive : ((playerOf st o).bombList.getD i default).ttl ≠ 0) (hbt : b.ttl ≠ 0)
    (hbombs : (playerOf st' o).bombs = (playerOf st o).bombs)
    (hmaxo : (playerOf st' o).maxBombs = (playerOf st o).maxBombs)
    (hbl : (playerOf st' o).bombList = (playerOf st o).bombList.set i b)
    (hother : playerOf st' (!o) = playerOf st (!o))
    (hchain : st'.bombChain = st.bombChain)
    (hdets : st'.dets = st.dets) :
    ScanPres st st' := by
  cases o
  case false =>
    simp only [playerOf_false, Bool.not_false, playerOf_true] at hbombs hmaxo hbl hother hlive
    have hlen : i < st.p1.bombList.length := getD_ttl_lt _ _ hlive
    have hkeep : liveCount (st.p1.bombList.set i b) = liveCount st.p1.bombList := by
      refine liveCount_set_keep _ _ _ hlen ?_
      have h1 : (b.ttl != 0) = true := by simpa using hbt
      have h2 : ((st.p1.bombList.getD i default).ttl != 0) = true := by simpa using hlive
      rw [h1, h2]
    have hmono : ∀ r : Bool × Nat, slotTtl st r = 0 → slotTtl st' r = 0 := by
      refine slot_mono_general st st' ?_ ?_
      · intro j hj
        rw [hbl]
        exact ttl_zero_set_live _ _ _ hlive j hj
      · intro j hj
        rw [hother]
        exact hj
    have hcr : chainRefs st' = chainRefs st := by
      simp only [chainRefs, hchain]
    refine ⟨?_, ?_, hmaxo, ?_, ?_, ?_, ?_, hmono, ?_⟩
    · simp only [bombsPlus]
      rw [hbombs, hbl, hkeep]
    · simp only [bombsPlus]
      rw [hother]
    · rw [hother]
    · rw [hbl, List.length_set]
    · rw [hother]
    · refine le_of_eq ?_
      simp only [chainMeasure]
      rw [hchain, hbl, hkeep, hother]
    · rintro ⟨hz, hnd⟩
      constructor
      · intro r hr
        rw [hcr, hdets] at hr
        exact hmono r (hz r hr)
      · rw [hcr, hdets]
        exact hnd
  case true =>
    simp only [playerOf_true, Bool.not_true, playerOf_false] at hbombs hmaxo hbl hother hlive
    have hlen : i < st.p2.bombList.length := getD_ttl_lt _ _ hlive
    have hkeep : liveCount (st.p2.bombList.set i b) = liveCount st.p2.bombList := by
      refine liveCount_set_keep _ _ _ hlen ?_
      have h1 : (b.ttl != 0) = true := by simpa using hbt
      have h2 : ((st.p2.bombList.getD i default).ttl != 0) = true := by simpa using hlive
      rw [h1, h2]
    have hmono : ∀ r : Bool × Nat, slotTtl st r = 0 → slotTtl st' r = 0 := by
      refine slot_mono_general st st' ?_ ?_
      · intro j hj
        rw [hother]
        exact hj
      · intro j hj
        rw [hbl]
        exact ttl_zero_set_live _ _ _ hlive j hj
    have hcr : chainRefs st' = chainRefs st := by
      simp only [chainRefs, hchain]
    refine ⟨?_, ?_, ?_, hmaxo, ?_, ?_, ?_, hmono, ?_⟩
    · simp only [bombsPlus]
      rw [hother]
    · simp only [bombsPlus]
      rw [hbombs, hbl, hkeep]
    · rw [hother]
    · rw [hother]
    · rw [hbl, List.length_set]
    · refine le_of_eq ?_
      simp only [chainMeasure]
      rw [hchain, hbl, hkeep, hother]
    · rintro ⟨hz, hnd⟩
      constructor
      · intro r hr
        rw [hcr, hdets] at hr
        exact hmono r (hz r hr)
      · rw [hcr, hdets]
        exact hnd

theorem ScanPres_detonate (st st' : GameState) (o : Bool) (i : Nat) (b : BombField)
    (hlive : ((playerOf st o).bombList.getD i default).ttl ≠ 0) (hb : b.ttl = 0)
    (hbombs : (playerOf st' o).bombs = (playerOf st o).bombs + 1)
    (hmaxo : (playerOf st' o).maxBombs = (playerOf st o).maxBombs)
    (hbl : (playerOf st' o).bombList = (playerOf st o).bombList.set i b)
    (hother : playerOf st' (!o) = playerOf st (!o))
    (hchain : st'.bombChain = st.bombChain)
    (hdets : st'.dets = st.dets ++ [(o, i)]) :
    ScanPres st st' := by
  cases o
  case false =>
    simp only [playerOf_false, Bool.not_false, playerOf_true] at hbombs hmaxo hbl hother hlive
    have hlen : i < st.p1.bombList.length := getD_ttl_lt _ _ hlive
    obtain ⟨hk, hpos⟩ := liveCount_set_kill st.p1.bombList i b hlen hlive hb
    have hmono : ∀ r : Bool × Nat, slotTtl st r = 0 → slotTtl st' r = 0 := by
      refine slot_mono_general st st' ?_ ?_
      · intro j hj
        rw [hbl]
        exact ttl_zero_set_dead _ _ _ hb j hj
      · intro j hj
        rw [hother]
        exact hj
    have hcr : chainRefs st' = chainRefs st := by
      simp only [chainRefs, hchain]
    refine ⟨?_, ?_, hmaxo, ?_, ?_, ?_, ?_, hmono, ?_⟩
    · simp only [bombsPlus]
      rw [hbombs, hbl]
      omega
    · simp only [bombsPlus]
      rw [hother]
    · rw [hother]
    · rw [hbl, List.length_set]
    · rw [hother]
    · simp only [chainMeasure]
      rw [hchain, hbl, hother]
      omega
    · rintro ⟨hz, hnd⟩
      have hfresh : (false, i) ∉ chainRefs st ++ st.dets := fun hmem => hlive (hz _ hmem)
      constructor
      · intro r hr
        rw [hcr, hdets, ← List.append_assoc] at hr
        rcases List.mem_append.mp hr with h1 | h1
        · exact hmono r (hz r h1)
        · rw [List.mem_singleton] at h1
          subst h1
          show (st'.p1.bombList.getD i default).ttl = 0
          rw [hbl, getD_set_self _ _ _ hlen]
          exact hb
      · rw [hcr, hdets, ← List.append_assoc]
        exact nodup_concat_fresh _ _ hnd hfresh
  case true =>
    simp only [playerOf_true, Bool.not_true, playerOf_false] at hbombs hmaxo hbl hother hlive
    have hlen : i < st.p2.bombList.length := getD_ttl_lt _ _ hlive
    obtain ⟨hk, hpos⟩ := liveCount_set_kill st.p2.bombList i b hlen hlive hb
    have hmono : ∀ r : Bool × Nat, slotTtl st r = 0 → slotTtl st' r = 0 := by
      refine slot_mono_general st st' ?_ ?_
      · intro j hj
        rw [hother]
        exact hj
      · intro j hj
        rw [hbl]
        exact ttl_zero_set_dead _ _ _ hb j hj
    have hcr : chainRefs st' = chainRefs st := by
      simp only [chainRefs, hchain]
    refine ⟨?_, ?_, ?_, hmaxo, ?_, ?_, ?_, hmono, ?_⟩
    · simp only [bombsPlus]
      rw [hother]
    · simp only [bombsPlus]
      rw [hbombs, hbl]
      omega
    · rw [hother]
    · rw [hother]
    · rw [hbl, List.length_set]
    · simp only [chainMeasure]
      rw [hchain, hbl, hother]
      omega
    · rintro ⟨hz, hnd⟩
      have hfresh : (true, i) ∉ chainRefs st ++ st.dets := fun hmem => hlive (hz _ hmem)
      constructor
      · intro r hr
        rw [hcr, hdets, ← List.append_assoc] at hr
        rcases List.mem_append.mp hr with h1 | h1
        · exact hmono r (hz r h1)
        · rw [List.mem_singleton] at h1
          subst h1
          show (st'.p2.bombList.getD i default).ttl = 0
          rw [hbl, getD_set_self _ _ _ hlen]
          exact hb
      · rw [hcr, hdets, ← List.append_assoc]
        exact nodup_concat_fresh _ _ hnd hfresh

theorem ScanPres_detonate_explode (st s3 : GameState) (o : Bool) (i : Nat) (b : BombField)
    (r : Nat) (hlive : ((playerOf st o).bombList.getD i default).ttl ≠ 0) (hb : b.ttl = 0)
    (hbombs : (playerOf s3 o).bombs = (playerOf st o).bombs + 1)
    (hmaxo : (playerOf s3 o).maxBombs = (playerOf st o).maxBombs)
    (hbl : (playerOf s3 o).bombList = (playerOf st o).bombList.set i b)
    (hother : playerOf s3 (!o) = playerOf st (!o))
    (hchain : s3.bombChain = st.bombChain)
    (hdets : s3.dets = st.dets ++ [(o, i)]) :
    ScanPres st (handleExplosion r o i s3) :=
  ScanPres_trans (ScanPres_detonate st s3 o i b hlive hb hbombs hmaxo hbl hother hchain hdets)
    (ExplPres.toScan (handleExplosion_pres r o i s3))

theorem bombScanStep_pres (o : Bool) (st : GameState) (i : Nat) :
    ScanPres st (bombScanStep o st i) := by
  cases o
  case false =>
    simp only [bombScanStep, playerOf_false]
    by_cases ht : (st.p1.bombList.getD i default).ttl ≠ 0
    · rw [if_pos ht]
      split_ifs with h2 h3 h4
      · exact ScanPres_slotKeep st _ false i _ ht h2 rfl rfl rfl rfl rfl rfl
      · exact ScanPres_slotKeep st _ false i _ ht h2 rfl rfl rfl rfl rfl rfl
      · exact ScanPres_slotKeep st _ false i _ ht h2 rfl rfl rfl rfl rfl rfl
      · have hb0 : (st.p1.bombList.getD i default).ttl - 1 = 0 := by simpa using h2
        apply ScanPres_detonate_explode st _ false i
          ⟨(st.p1.bombList.getD i default).x, (st.p1.bombList.getD i default).y,
            (st.p1.bombList.getD i default).ttl - 1,
            (st.p1.bombList.getD i default).curFrame,
            (st.p1.bombList.getD i default).ttlFrame⟩ _ ht hb0 <;> rfl
    · rw [if_neg ht]
      exact ScanPres_refl st
  case true =>
    simp only [bombScanStep, playerOf_true]
    by_cases ht : (st.p2.bombList.getD i default).ttl ≠ 0
    · rw [if_pos ht]
      split_ifs with h2 h3
      · exact ScanPres_slotKeep st _ true i _ ht h2 rfl rfl rfl rfl rfl rfl
      · exact ScanPres_slotKeep st _ true i _ ht h2 rfl rfl rfl rfl rfl rfl
      · have hb0 : (st.p2.bombList.getD i default).ttl - 1 = 0 := by simpa using h2
        apply ScanPres_detonate_explode st _ true i
          ⟨(st.p2.bombList.getD i default).x, (st.p2.bombList.getD i default).y,
            (st.p2.bombList.getD i default).ttl - 1,
            (st.p2.bombList.getD i default).curFrame,
            (st.p2.bombList.getD i default).ttlFrame⟩ _ ht hb0 <;> rfl
    · rw [if_neg ht]
      exact ScanPres_refl st

theorem foldl_bombScanStep_pres (o : Bool) (l : List Nat) (st : GameState) :
    ScanPres st (l.foldl (bombScanStep o) st) := by
  induction l generalizing st with
  | nil => exact ScanPres_refl st
  | cons a t ih => exact ScanPres_trans (bombScanStep_pres o st a) (ih _)

theorem bombScan_pres (o : Bool) (st : GameState) : ScanPres st (bombScan o st) :=
  foldl_bombScanStep_pres o _ st

theorem chainLoop_stop (fuel i : Nat) (st : GameState) (h : ¬ i < st.bombChain.length) :
    chainLoop fuel i st = st := by
  cases fuel with
  | zero => rfl
  | succ f =>
    simp only [chainLoop]
    rw [dif_neg h]

theorem chainLoop_pres : ∀ (fuel i : Nat) (st : GameState), ExplPres st (chainLoop fuel i st) := by
  intro fuel
  induction fuel with
  | zero => intro i st; exact ExplPres_refl st
  | succ f ih =>
    intro i st
    by_cases h : i < st.bombChain.length
    · simp only [chainLoop]
      rw [dif_pos h]
      exact ExplPres_trans (handleExplosion_pres _ _ _ _) (ih _ _)
    · rw [chainLoop_stop _ _ _ h]
      exact ExplPres_refl st

theorem chainLoop_fuel_irrelevant : ∀ (f1 f2 i : Nat) (st : GameState),
    chainMeasure st ≤ 2 * MAX_BOMBS → 2 * MAX_BOMBS ≤ i + f1 → 2 * MAX_BOMBS ≤ i + f2 →
    chainLoop f1 i st = chainLoop f2 i st := by
  intro f1
  induction f1 with
  | zero =>
    intro f2 i st hm h1 h2
    have hlm : st.bombChain.length ≤ chainMeasure st := by
      simp only [chainMeasure]
      omega
    have hstop : ¬ i < st.bombChain.length := by omega
    rw [chainLoop_stop 0 i st hstop, chainLoop_stop f2 i st hstop]
  | succ f ih =>
    intro f2 i st hm h1 h2
    cases f2 with
    | zero =>
      have hlm : st.bombChain.length ≤ chainMeasure st := by
        simp only [chainMeasure]
        omega
      have hstop : ¬ i < st.bombChain.length := by omega
      rw [chainLoop_stop (f + 1) i st hstop, chainLoop_stop 0 i st hstop]
    | succ g =>
      by_cases h : i < st.bombChain.length
      · simp only [chainLoop]
        rw [dif_pos h, dif_pos h]
        have hms := (handleExplosion_pres (st.bombChain.get ⟨i, h⟩).range
          (st.bombChain.get ⟨i, h⟩).owner (st.bombChain.get ⟨i, h⟩).idx st).2.2.2.2.2.2.2.1
        exact ih g (i + 1) _ (by omega) (by omega) (by omega)
      · rw [chainLoop_stop _ _ _ h, chainLoop_stop _ _ _ h]

set_option maxHeartbeats 1600000 in
/-- C4: chain-reaction resolution stays within capacity and terminates.
With full-size bomb lists (`MAX_BOMBS` slots per player), one tick's bomb
handling (`tickBombs`) yields a state in which every bomb recorded in the
chain list or detonated by the timer path appears exactly once (the `ttl`
zeroed at enqueue time prevents any re-enqueue or second timer detonation)
and has `ttl = 0`; the chain list holds at most `2 * MAX_BOMBS` entries
both when the chain loop starts (right after the two timer scans) and when
it ends (the fixed-capacity queue never overflows); and any loop fuel of at
least `2 * MAX_BOMBS` iterations yields the very same final state, so chain
processing terminates even for circular bomb layouts. -/
theorem c4_chain_termination_and_capacity (st : GameState)
    (hl1 : st.p1.bombList.length = MAX_BOMBS)
    (hl2 : st.p2.bombList.length = MAX_BOMBS) :
    ((chainRefs (tickBombs st) ++ (tickBombs st).dets).Nodup ∧
      ∀ r ∈ chainRefs (tickBombs st) ++ (tickBombs st).dets, slotTtl (tickBombs st) r = 0) ∧
    (bombScan true (bombScan false
      { st with bombChain := [], dets := [] })).bombChain.length ≤ 2 * MAX_BOMBS ∧
    (tickBombs st).bombChain.length ≤ 2 * MAX_BOMBS ∧
    (∀ fuel, 2 * MAX_BOMBS ≤ fuel →
      chainLoop fuel 0 (bombScan true (bombScan false
        { st with bombChain := [], dets := [] })) = tickBombs st) := by
  have hminv0 : MInv { st with bombChain := [], dets := [] } := by
    constructor
    · intro r hr
      simp [chainRefs] at hr
    · simp [chainRefs]
  have hlive1 : liveCount st.p1.bombList ≤ MAX_BOMBS := by
    rw [← hl1]
    exact List.countP_le_length _
  have hlive2 : liveCount st.p2.bombList ≤ MAX_BOMBS := by
    rw [← hl2]
    exact List.countP_le_length _
  have hcm0 : chainMeasure { st with bombChain := [], dets := [] } =
      List.length ([] : List TriggeredBomb) + liveCount st.p1.bombList +
        liveCount st.p2.bombList := rfl
  have hm0 : chainMeasure { st with bombChain := [], dets := [] } ≤ 2 * MAX_BOMBS := by
    rw [hcm0]
    simp only [List.length_nil]
    omega
  have hs2 : ScanPres { st with bombChain := [], dets := [] }
      (bombScan true (bombScan false { st with bombChain := [], dets := [] })) :=
    ScanPres_trans (bombScan_pres false _) (bombScan_pres true _)
  obtain ⟨_, _, _, _, _, _, hm2, _, hmi2⟩ := hs2
  have hminv2 := hmi2 hminv0
  have hm2' : chainMeasure
      (bombScan true (bombScan false { st with bombChain := [], dets := [] })) ≤
      2 * MAX_BOMBS := le_trans hm2 hm0
  have hlen2 : (bombScan true (bombScan false
      { st with bombChain := [], dets := [] })).bombChain.length ≤ 2 * MAX_BOMBS := by
    have hlm : (bombScan true (bombScan false
        { st with bombChain := [], dets := [] })).bombChain.length ≤
        chainMeasure (bombScan true (bombScan false { st with bombChain := [], dets := [] })) := by
      simp only [chainMeasure]
      omega
    omega
  have hcp := chainLoop_pres (2 * MAX_BOMBS) 0
    (bombScan true (bombScan false { st with bombChain := [], dets := [] }))
  obtain ⟨_, _, _, _, _, _, _, hm3, _, hmi3⟩ := hcp
  have hminv3 := hmi3 hminv2
  have htb : tickBombs st = chainLoop (2 * MAX_BOMBS) 0
      (bombScan true (bombScan false { st with bombChain := [], dets := [] })) := rfl
  refine ⟨⟨?_, ?_⟩, hlen2, ?_, ?_⟩
  · rw [htb]
    exact hminv3.2
  · rw [htb]
    intro r hr
    exact hminv3.1 r hr
  · rw [htb]
    have hlm : (chainLoop (2 * MAX_BOMBS) 0 (bombScan true (bombScan false
        { st with bombChain := [], dets := [] }))).bombChain.length ≤
        chainMeasure (chainLoop (2 * MAX_BOMBS) 0 (bombScan true (bombScan false
          { st with bombChain := [], dets := [] }))) := by
      simp only [chainMeasure]
      omega
    omega
  · intro fuel hf
    rw [htb]
    exact chainLoop_fuel_irrelevant fuel (2 * MAX_BOMBS) 0 _ hm2' (by omega) (by omega)

/-- C4 witness: the capacity/termination theorem instantiated at the
concrete two-bomb state `stC2`. -/
theorem c4_chain_termination_and_capacity_witness :
    stC2.p1.bombList.length = MAX_BOMBS ∧ stC2.p2.bombList.length = MAX_BOMBS ∧
    (((chainRefs (tickBombs stC2) ++ (tickBombs stC2).dets).Nodup ∧
      ∀ r ∈ chainRefs (tickBombs stC2) ++ (tickBombs stC2).dets,
        slotTtl (tickBombs stC2) r = 0) ∧
    (bombScan true (bombScan false
      { stC2 with bombChain := [], dets := [] })).bombChain.length ≤ 2 * MAX_BOMBS ∧
    (tickBombs stC2).bombChain.length ≤ 2 * MAX_BOMBS ∧
    (∀ fuel, 2 * MAX_BOMBS ≤ fuel →
      chainLoop fuel 0 (bombScan true (bombScan false
        { stC2 with bombChain := [], dets := [] })) = tickBombs stC2)) :=
  ⟨by decide, by decide,
    c4_chain_termination_and_capacity stC2 (by decide) (by decide)⟩

/-! ## C7: the per-player bomb-counter invariant -/

/-- The bomb bookkeeping invariant of one player: a full-size bomb list,
a `maxBombs` within the configured limit, and available plus live bombs
adding up to `maxBombs` (so `bombs` can never exceed `maxBombs`). -/
def playerInv (cfg : Cfg) (p : Player) : Prop :=
  p.bombList.length = MAX_BOMBS ∧ p.maxBombs ≤ cfg.maxBombs ∧ bombsPlus p = p.maxBombs

/-- The bomb bookkeeping invariant for both players. -/
def playersInv (cfg : Cfg) (st : GameState) : Prop :=
  playerInv cfg st.p1 ∧ playerInv cfg st.p2

@[simp] theorem setField_p1 (m off : Nat) (st : GameState) : (setField m off st).p1 = st.p1 :=
  rfl

@[simp] theorem setField_p2 (m off : Nat) (st : GameState) : (setField m off st).p2 = st.p2 :=
  rfl

theorem timerStep_players (st : GameState) :
    (timerStep st).p1 = st.p1 ∧ (timerStep st).p2 = st.p2 := by
  simp only [timerStep]
  split_ifs <;> exact ⟨rfl, rfl⟩

theorem runningStep_pres (cfg : Cfg) (st : GameState) (h : playersInv cfg st) :
    playersInv cfg (runningStep st) := by
  simp only [runningStep]
  split_ifs <;> exact h

theorem playerAnimStep_pres (cfg : Cfg) (o : Bool) (st : GameState) (h : playersInv cfg st) :
    playersInv cfg (playerAnimStep o st) := by
  cases o <;>
    (simp only [playerAnimStep, playerOf_false, playerOf_true, setPlayer_false, setPlayer_true]
     split_ifs <;> exact h)

theorem tickFieldAt_players (st : GameState) (k : Nat) :
    (tickFieldAt st k).p1 = st.p1 ∧ (tickFieldAt st k).p2 = st.p2 := by
  simp only [tickFieldAt]
  split_ifs <;> exact ⟨rfl, rfl⟩

theorem foldl_tickFieldAt_players (l : List Nat) (st : GameState) :
    (l.foldl tickFieldAt st).p1 = st.p1 ∧ (l.foldl tickFieldAt st).p2 = st.p2 := by
  induction l generalizing st with
  | nil => exact ⟨rfl, rfl⟩
  | cons a t ih =>
    obtain ⟨h1, h2⟩ := ih (tickFieldAt st a)
    obtain ⟨g1, g2⟩ := tickFieldAt_players st a
    exact ⟨h1.trans g1, h2.trans g2⟩

theorem tickBombs_pres_inv (cfg : Cfg) (st : GameState) (h : playersInv cfg st) :
    playersInv cfg (tickBombs st) := by
  have hs : ScanPres { st with bombChain := [], dets := [] } (tickBombs st) :=
    ScanPres_trans
      (ScanPres_trans (bombScan_pres false _)
        (bombScan_pres true (bombScan false { st with bombChain := [], dets := [] })))
      (ExplPres.toScan (chainLoop_pres (2 * MAX_BOMBS) 0
        (bombScan true (bombScan false { st with bombChain := [], dets := [] }))))
  obtain ⟨hb1, hb2, hm1, hm2p, hl1, hl2p, _, _, _⟩ := hs
  obtain ⟨⟨i1, i2, i3⟩, ⟨j1, j2, j3⟩⟩ := h
  refine ⟨⟨hl1.trans i1, ?_, ?_⟩, ⟨hl2p.trans j1, ?_, ?_⟩⟩
  · exact le_trans (le_of_eq hm1) i2
  · exact (hb1.trans i3).trans hm1.symm
  · exact le_trans (le_of_eq hm2p) j2
  · exact (hb2.trans j3).trans hm2p.symm

theorem liveCount_full (l : List BombField)
    (hfind : l.findIdx? (fun bf => bf.ttl == 0) = none) : liveCount l = l.length := by
  rw [List.findIdx?_eq_none_iff] at hfind
  unfold liveCount
  rw [List.countP_eq_length]
  intro a ha
  have := hfind a ha
  simp at this ⊢
  exact this

theorem handleBombDrop_pres (cfg : Cfg) (padA o : Bool) (st : GameState)
    (hcfg : cfg.maxBombs ≤ MAX_BOMBS) (h : playersInv cfg st) :
    playersInv cfg (handleBombDrop padA o st) := by
  cases o
  case false =>
    simp only [handleBombDrop, playerOf_false, setPlayer_false, setField_p1]
    by_cases hpa : (padA && (st.p1.bombs != 0)) = true
    · rw [if_pos hpa]
      have hpb : st.p1.bombs ≠ 0 := by
        simp only [Bool.and_eq_true, bne_iff_ne, ne_eq] at hpa
        exact hpa.2
      obtain ⟨⟨i1, i2, i3⟩, hp2⟩ := h
      simp only [bombsPlus] at i3
      split_ifs with hf
      · rcases hfind : st.p1.bombList.findIdx? (fun bf => bf.ttl == 0) with _ | i
        · have hfull := liveCount_full _ hfind
          omega
        · obtain ⟨hilen, hip⟩ := findIdx?_some _ _ _ hfind
          have hidead : (st.p1.bombList.getD i default).ttl = 0 := by simpa using hip
          have hrev := liveCount_set_revive st.p1.bombList i
            ⟨tileCoord st.p1.x P_MID_X, tileCoord st.p1.y P_MID_Y, BOMB_TTL, 0, BOMB_ANIMATION⟩
            hilen hidead (by simp [BOMB_TTL])
          simp only [hfind]
          refine ⟨⟨?_, i2, ?_⟩, hp2⟩
          · simp only [List.length_set]
            exact i1
          · simp only [bombsPlus]
            rw [hrev]
            omega
      · exact ⟨⟨i1, i2, by simpa [bombsPlus] using i3⟩, hp2⟩
    · rw [if_neg hpa]
      exact h
  case true =>
    simp only [handleBombDrop, playerOf_true, setPlayer_true, setField_p2]
    by_cases hpa : (padA && (st.p2.bombs != 0)) = true
    · rw [if_pos hpa]
      have hpb : st.p2.bombs ≠ 0 := by
        simp only [Bool.and_eq_true, bne_iff_ne, ne_eq] at hpa
        exact hpa.2
      obtain ⟨hp1, ⟨i1, i2, i3⟩⟩ := h
      simp only [bombsPlus] at i3
      split_ifs with hf
      · rcases hfind : st.p2.bombList.findIdx? (fun bf => bf.ttl == 0) with _ | i
        · have hfull := liveCount_full _ hfind
          omega
        · obtain ⟨hilen, hip⟩ := findIdx?_some _ _ _ hfind
          have hidead : (st.p2.bombList.getD i default).ttl = 0 := by simpa using hip
          have hrev := liveCount_set_revive st.p2.bombList i
            ⟨tileCoord st.p2.x P_MID_X, tileCoord st.p2.y P_MID_Y, BOMB_TTL, 0, BOMB_ANIMATION⟩
            hilen hidead (by simp [BOMB_TTL])
          simp only [hfind]
          refine ⟨hp1, ⟨?_, i2, ?_⟩⟩
          · simp only [List.length_set]
            exact i1
          · simp only [bombsPlus]
            rw [hrev]
            omega
      · exact ⟨hp1, ⟨i1, i2, by simpa [bombsPlus] using i3⟩⟩
    · rw [if_neg hpa]
      exact h

theorem checkPlayerCollision_pres (cfg : Cfg) (o : Bool) (xOffset yOffset : Nat)
    (st : GameState) (h : playersInv cfg st) :
    playersInv cfg (checkPlayerCollision cfg o xOffset yOffset st) := by
  cases o
  case false =>
    simp only [checkPlayerCollision, playerOf_false, setPlayer_false]
    have i1 := h.1.1
    have i3 := h.1.2.2
    simp only [bombsPlus] at i3
    split_ifs with h1 h2 h3 h4 h5 h6 h7 h8 <;>
      first
      | exact h
      | refine ⟨⟨i1,
          by show st.p1.maxBombs + 1 ≤ cfg.maxBombs; omega,
          by show st.p1.bombs + 1 + liveCount st.p1.bombList = st.p1.maxBombs + 1; omega⟩,
          h.2⟩
  case true =>
    simp only [checkPlayerCollision, playerOf_true, setPlayer_true]
    have i1 := h.2.1
    have i3 := h.2.2.2
    simp only [bombsPlus] at i3
    split_ifs with h1 h2 h3 h4 h5 h6 h7 h8 <;>
      first
      | exact h
      | refine ⟨h.1, ⟨i1,
          by show st.p2.maxBombs + 1 ≤ cfg.maxBombs; omega,
          by show st.p2.bombs + 1 + liveCount st.p2.bombList = st.p2.maxBombs + 1; omega⟩⟩

/-- The `change x if not blocked` block of `handlePlayerStep`. -/
def moveX (pad : Pad) (o : Bool) (st : GameState) : GameState :=
  let dx := padDx pad
  let p := playerOf st o
  let j := u8i ((p.x : Int) + dx)
  if dx > 0 then
    let x := tileCoord j P_RIGHT
    let b := canEnter st o x (tileCoord p.y P_TOP)
    if b && canEnter st o x (tileCoord p.y P_BOTTOM) then
      setPlayer o { p with x := j } { st with refreshSprites := true }
    else st
  else if dx < 0 then
    let x := tileCoord j P_LEFT
    let b := canEnter st o x (tileCoord p.y P_TOP)
    if b && canEnter st o x (tileCoord p.y P_BOTTOM) then
      setPlayer o { p with x := j } { st with refreshSprites := true }
    else st
  else st

/-- The `change y if not blocked` block of `handlePlayerStep`. -/
def moveY (pad : Pad) (o : Bool) (st : GameState) : GameState :=
  let dy := padDy pad
  let p := playerOf st o
  let j := u8i ((p.y : Int) + dy)
  if dy > 0 then
    let y := tileCoord j P_BOTTOM
    let b := canEnter st o (tileCoord p.x P_LEFT) y
    if b && canEnter st o (tileCoord p.x P_RIGHT) y then
      setPlayer o { p with y := j } { st with refreshSprites := true }
    else st
  else if dy < 0 then
    let y := tileCoord j P_TOP
    let b := canEnter st o (tileCoord p.x P_LEFT) y
    if b && canEnter st o (tileCoord p.x P_RIGHT) y then
      setPlayer o { p with y := j } { st with refreshSprites := true }
    else st
  else st

/-- The `animation handling` block of `handlePlayerStep`. -/
def moveAniUpd (pad : Pad) (o : Bool) (st : GameState) : GameState :=
  let dx := padDx pad
  let dy := padDy pad
  let p := playerOf st o
  if p.moving ≠ 0 then
    if dx ≠ 0 ∨ dy ≠ 0 then
      let j := ((dx + 1).toNat <<< 2) + (dy + 1).toNat
      if p.moveAniIdx ≠ j then
        let ma := moveAni.getD j default
        setPlayer o
          { p with
            firstFrame := ma.firstFrame
            curFrame := ma.firstFrame
            flipX := ma.flipX
            moveAniIdx := j
            ttlFrame := PLAYER_ANIMATION } { st with refreshSprites := true }
      else st
    else
      setPlayer o { p with curFrame := p.firstFrame, moving := 0 }
        { st with refreshSprites := true }
  else if dx ≠ 0 ∨ dy ≠ 0 then setPlayer o { p with moving := 1 } st
  else st

/-- The `exit from last bomb dropped handling` block of `handlePlayerStep`. -/
def lastBombExit (o : Bool) (st : GameState) : GameState :=
  let p := playerOf st o
  if p.moving ≠ 0 then
    if p.lastBombIdx ≠ INVALID_LAST_BOMB_IDX then
      let bf := p.bombList.getD p.lastBombIdx default
      let x1 := tileCoord p.x P_LEFT
      let x2 := tileCoord p.x P_RIGHT
      let y1 := tileCoord p.y P_TOP
      let y2 := tileCoord p.y P_BOTTOM
      if ¬ (x1 ≤ bf.x ∧ bf.x ≤ x2 ∧ y1 ≤ bf.y ∧ bf.y ≤ y2) then
        setPlayer o { p with lastBombIdx := INVALID_LAST_BOMB_IDX } st
      else st
    else st
  else st

/-- `handlePlayerStep` decomposed into its four blocks followed by the four
corner collision checks (definitional restructuring). -/
theorem handlePlayerStep_eq (cfg : Cfg) (pad : Pad) (o : Bool) (st : GameState) :
    handlePlayerStep cfg pad o st =
      checkPlayerCollision cfg o P_RIGHT P_BOTTOM (checkPlayerCollision cfg o P_LEFT P_BOTTOM
        (checkPlayerCollision cfg o P_RIGHT P_TOP (checkPlayerCollision cfg o P_LEFT P_TOP
          (lastBombExit o (moveAniUpd pad o (moveY pad o (moveX pad o st))))))) := rfl

theorem moveX_pres (cfg : Cfg) (pad : Pad) (o : Bool) (st : GameState)
    (h : playersInv cfg st) : playersInv cfg (moveX pad o st) := by
  cases o <;>
    (simp only [moveX, playerOf_false, playerOf_true, setPlayer_false, setPlayer_true]
     split_ifs <;> exact h)

theorem moveY_pres (cfg : Cfg) (pad : Pad) (o : Bool) (st : GameState)
    (h : playersInv cfg st) : playersInv cfg (moveY pad o st) := by
  cases o <;>
    (simp only [moveY, playerOf_false, playerOf_true, setPlayer_false, setPlayer_true]
     split_ifs <;> exact h)

theorem moveAniUpd_pres (cfg : Cfg) (pad : Pad) (o : Bool) (st : GameState)
    (h : playersInv cfg st) : playersInv cfg (moveAniUpd pad o st) := by
  cases o <;>
    (simp only [moveAniUpd, playerOf_false, playerOf_true, setPlayer_false, setPlayer_true]
     split_ifs <;> exact h)

theorem lastBombExit_pres (cfg : Cfg) (o : Bool) (st : GameState)
    (h : playersInv cfg st) : playersInv cfg (lastBombExit o st) := by
  cases o <;>
    (simp only [lastBombExit, playerOf_false, playerOf_true, setPlayer_false, setPlayer_true]
     split_ifs <;> exact h)

theorem handlePlayerStep_pres (cfg : Cfg) (pad : Pad) (o : Bool) (st : GameState)
    (h : playersInv cfg st) :
    playersInv cfg (handlePlayerStep cfg pad o st) := by
  rw [handlePlayerStep_eq]
  exact checkPlayerCollision_pres _ _ _ _ _ (checkPlayerCollision_pres _ _ _ _ _
    (checkPlayerCollision_pres _ _ _ _ _ (checkPlayerCollision_pres _ _ _ _ _
      (lastBombExit_pres _ _ _ (moveAniUpd_pres _ _ _ _
        (moveY_pres _ _ _ _ (moveX_pres _ _ _ _ h)))))))

theorem foldl_playerStep_pres (cfg : Cfg) (pad : Pad) (o : Bool) (l : List Nat)
    (st : GameState) (h : playersInv cfg st) :
    playersInv cfg (l.foldl (fun s _ => handlePlayerStep cfg pad o s) st) := by
  induction l generalizing st with
  | nil => exact h
  | cons a t ih => exact ih _ (handlePlayerStep_pres _ _ _ _ h)

theorem handlePlayer_pres (cfg : Cfg) (pad : Pad) (o : Bool) (st : GameState)
    (hcfg : cfg.maxBombs ≤ MAX_BOMBS) (h : playersInv cfg st) :
    playersInv cfg (handlePlayer cfg pad o st) := by
  have h1 := handleBombDrop_pres cfg pad.a o st hcfg h
  simp only [handlePlayer]
  split_ifs with hr <;> exact foldl_playerStep_pres cfg pad o _ _ h1

theorem tick10Hz_pres (cfg : Cfg) (st : GameState) (h : playersInv cfg st) :
    playersInv cfg (tick10Hz st) := by
  have h1 : playersInv cfg (timerStep st) := by
    obtain ⟨e1, e2⟩ := timerStep_players st
    exact ⟨by rw [e1]; exact h.1, by rw [e2]; exact h.2⟩
  have h2 := runningStep_pres cfg _ h1
  have h3 := playerAnimStep_pres cfg false _ h2
  have h4 := playerAnimStep_pres cfg true _ h3
  have h5 : playersInv cfg (tickFields (playerAnimStep true (playerAnimStep false
      (runningStep (timerStep st))))) := by
    have e1 : (tickFields (playerAnimStep true (playerAnimStep false
        (runningStep (timerStep st))))).p1 =
        (playerAnimStep true (playerAnimStep false (runningStep (timerStep st)))).p1 :=
      (foldl_tickFieldAt_players fieldElemIndex _).1
    have e2 : (tickFields (playerAnimStep true (playerAnimStep false
        (runningStep (timerStep st))))).p2 =
        (playerAnimStep true (playerAnimStep false (runningStep (timerStep st)))).p2 :=
      (foldl_tickFieldAt_players fieldElemIndex _).2
    exact ⟨by rw [e1]; exact h4.1, by rw [e2]; exact h4.2⟩
  exact tickBombs_pres_inv cfg _ h5

/-- C7: the bomb-counter invariant.  With a configured bomb limit of at most
`MAX_BOMBS` and both players satisfying the bookkeeping invariant (full-size
bomb list, `maxBombs` within the configured limit, and available plus live
bombs equal to `maxBombs`), one whole simulated frame (`frameStep`, with or
without its 10Hz block) preserves the invariant for both players; in
particular each player's `bombs` counter never exceeds that player's
`maxBombs`, which never exceeds the configured limit.  Within the step
functions the counter moves exactly as the claim states: `handleBombDrop`
decrements `bombs` by 1 only behind the `bombs != 0` guard (so it cannot
go below zero) and `handleExplodedField`/`bombScanStep` credit exactly 1
bomb per detonation. -/
theorem c7_bomb_counter_invariant (cfg : Cfg) (pad0 pad1 : Pad) (tenHz : Bool)
    (st : GameState) (hcfg : cfg.maxBombs ≤ MAX_BOMBS) (h : playersInv cfg st) :
    playersInv cfg (frameStep cfg pad0 pad1 tenHz st) ∧
    (frameStep cfg pad0 pad1 tenHz st).p1.bombs ≤
      (frameStep cfg pad0 pad1 tenHz st).p1.maxBombs ∧
    (frameStep cfg pad0 pad1 tenHz st).p1.maxBombs ≤ cfg.maxBombs ∧
    (frameStep cfg pad0 pad1 tenHz st).p2.bombs ≤
      (frameStep cfg pad0 pad1 tenHz st).p2.maxBombs ∧
    (frameStep cfg pad0 pad1 tenHz st).p2.maxBombs ≤ cfg.maxBombs := by
  have hstep : playersInv cfg (frameStep cfg pad0 pad1 tenHz st) := by
    simp only [frameStep]
    apply handlePlayer_pres _ _ _ _ hcfg
    apply handlePlayer_pres _ _ _ _ hcfg
    cases tenHz
    · simp only [Bool.false_eq_true, if_false]
      exact h
    · simp only [if_true]
      exact tick10Hz_pres cfg st h
  refine ⟨hstep, ?_, hstep.1.2.1, ?_, hstep.2.2.1⟩
  · have hb := hstep.1.2.2
    simp only [bombsPlus] at hb
    omega
  · have hb := hstep.2.2.2
    simp only [bombsPlus] at hb
    omega

/-- C7 witness: the invariant theorem instantiated at the base state with a
one-bomb configuration, across a full frame with the 10Hz block active. -/
theorem c7_bomb_counter_invariant_witness :
    (⟨1, 1⟩ : Cfg).maxBombs ≤ MAX_BOMBS ∧ playersInv ⟨1, 1⟩ stBase ∧
    (playersInv ⟨1, 1⟩ (frameStep ⟨1, 1⟩ default default true stBase) ∧
      (frameStep ⟨1, 1⟩ default default true stBase).p1.bombs ≤
        (frameStep ⟨1, 1⟩ default default true stBase).p1.maxBombs ∧
      (frameStep ⟨1, 1⟩ default default true stBase).p1.maxBombs ≤ (⟨1, 1⟩ : Cfg).maxBombs ∧
      (frameStep ⟨1, 1⟩ default default true stBase).p2.bombs ≤
        (frameStep ⟨1, 1⟩ default default true stBase).p2.maxBombs ∧
      (frameStep ⟨1, 1⟩ default default true stBase).p2.maxBombs ≤ (⟨1, 1⟩ : Cfg).maxBombs) := by
  have hinv : playersInv ⟨1, 1⟩ stBase := by
    refine ⟨⟨?_, ?_, ?_⟩, ⟨?_, ?_, ?_⟩⟩ <;> decide
  exact ⟨by decide, hinv,
    c7_bomb_counter_invariant ⟨1, 1⟩ default default true stBase (by decide) hinv⟩
